import Mathlib

/-!
# sift-cors-proxy: a shallow embedding of `src/index.js`

The worker is a pure function of the inbound request and of what the network
answers.  The embedding makes both explicit:

* the platform objects the source manipulates (`Headers`, `URLSearchParams`,
  `Response`, parsed JSON values) are modelled by small executable definitions
  that follow the Fetch standard;
* the outbound `fetch` is an oracle (`World`) asked once per outbound call, and
  every handler returns, next to its response, the log of outbound calls it
  issued.
-/

namespace SiftProxy

/-! ## Strings -/

/-- ASCII lower-casing of one character: header names are compared
byte-case-insensitively. -/
def asciiLower (c : Char) : Char :=
  if 65 ≤ c.toNat ∧ c.toNat ≤ 90 then Char.ofNat (c.toNat + 32) else c

/-- ASCII lower-casing of a header name. -/
def lowerName (s : String) : String := ⟨s.data.map asciiLower⟩

/-- JavaScript `s.startsWith(p)`. -/
def startsWith (s p : String) : Bool := p.data.isPrefixOf s.data

/-- JavaScript `s.substring(1)`. -/
def substring1 (s : String) : String := ⟨s.data.drop 1⟩

/-! ## `Headers` (Fetch standard, header list) -/

/-- A header list: (name, value) pairs in insertion order; a name may repeat. -/
abbrev Headers := List (String × String)

namespace Headers

/-- Whether an entry carries the header `name` (case-insensitive). -/
def named (name : String) (p : String × String) : Bool :=
  lowerName p.1 == lowerName name

/-- The values stored under `name`, in list order. -/
def values (h : Headers) (name : String) : List String :=
  (h.filter (named name)).map Prod.snd

/-- JavaScript `new Headers()`. -/
def empty : Headers := []

/-- JavaScript `headers.has(name)`. -/
def has (h : Headers) (name : String) : Bool := h.any (named name)

/-- JavaScript `headers.get(name)`: the values of `name` joined by `", "`, or
`null`. -/
def get (h : Headers) (name : String) : Option String :=
  match h.values name with
  | [] => none
  | v :: vs => some (", ".intercalate (v :: vs))

/-- JavaScript `headers.delete(name)`: removes every entry of that name. -/
def delete (h : Headers) (name : String) : Headers :=
  h.filter (fun p => !named name p)

/-- JavaScript `headers.append(name, value)`. -/
def append (h : Headers) (name value : String) : Headers := h ++ [(name, value)]

/-- Replace the value of the first entry named `name` and drop the later ones. -/
def setFirst (name value : String) : Headers → Headers
  | [] => []
  | p :: rest =>
    if named name p then (p.1, value) :: delete rest name
    else p :: setFirst name value rest

/-- JavaScript `headers.set(name, value)`: overwrite when present, append otherwise. -/
def set (h : Headers) (name value : String) : Headers :=
  if h.has name then setFirst name value h else h.append name value

/-- The sorted lower-case set of the names of a header list. -/
def sortedNames (h : Headers) : List String :=
  ((h.map (fun p => lowerName p.1)).dedup).insertionSort (fun a b => a.data ≤ b.data)

/-- The values iteration yields for one lower-case name: each `set-cookie`
value on its own, the values of any other name combined into one. -/
def combined (h : Headers) (name : String) : List String :=
  if name = "set-cookie" then values h name
  else
    match get h name with
    | some v => [v]
    | none => []

/-- The entries iteration yields for one lower-case name. -/
def entriesOf (h : Headers) (name : String) : List (String × String) :=
  (combined h name).map (fun v => (name, v))

/-- JavaScript `headers.entries()`: the "sort and combine" of the header list. -/
def entries (h : Headers) : List (String × String) :=
  (sortedNames h).flatMap (entriesOf h)

/-- JavaScript `new Headers(init)`: every entry that iterating `init` yields
is appended to a fresh list. -/
def copy (init : Headers) : Headers :=
  (entries init).foldl (fun acc p => acc.append p.1 p.2) empty

end Headers

/-- JavaScript `Object.fromEntries(entries)`: a later entry of a key overwrites
the value of the earlier one in place. -/
def objectFromEntries (entries : List (String × String)) : List (String × String) :=
  entries.foldl
    (fun acc p =>
      if acc.any (fun q => q.1 == p.1) then
        acc.map (fun q => if q.1 == p.1 then (q.1, p.2) else q)
      else acc ++ [p])
    []

/-! ## `URLSearchParams` -/

/-- The decoded query of the request URL: (name, value) pairs in order. -/
abbrev SearchParams := List (String × String)

/-- JavaScript `searchParams.get(name)`: the value of the first pair of that name. -/
def SearchParams.get (q : SearchParams) (name : String) : Option String :=
  (q.find? (fun p => p.1 == name)).map Prod.snd

/-! ## JavaScript values and JSON documents -/

/-- A number `JSON.parse` can yield: a finite double `mantissa * 2 ^ exponent`,
negative zero, or an infinity (from a literal out of range, such as `1e400`);
never NaN. -/
inductive JsNumber where
  | finite (mantissa exponent : Int)
  | negZero
  | posInfinity
  | negInfinity

/-- An in-memory value: what `request.json()` can yield, plus `undefined` for
an absent property.  The fields of an object are in property order. -/
inductive JsVal where
  | undefined
  | null
  | bool (b : Bool)
  | num (n : JsNumber)
  | str (s : String)
  | arr (items : List JsVal)
  | obj (fields : List (String × JsVal))

/-- A JSON document: the text `JSON.stringify` writes, up to the spelling of
its numbers.  A JSON number is finite. -/
inductive Json where
  | null
  | bool (b : Bool)
  | num (mantissa exponent : Int)
  | str (s : String)
  | arr (items : List Json)
  | obj (fields : List (String × Json))

namespace JsVal

/-- JavaScript truthiness, as tested by `!urls`. -/
def truthy : JsVal → Bool
  | undefined => false
  | null => false
  | bool b => b
  | num (JsNumber.finite mantissa _) => mantissa != 0
  | num JsNumber.negZero => false
  | num _ => true
  | str s => s != ""
  | arr _ => true
  | obj _ => true

/-- JavaScript `Array.isArray(v)`. -/
def isArray : JsVal → Bool
  | arr _ => true
  | _ => false

/-- The elements `v.map` walks over (only called on arrays). -/
def items : JsVal → List JsVal
  | arr xs => xs
  | _ => []

/-- JavaScript `const { urls } = body`: throws a TypeError on `null` and `undefined`;
an object yields its `urls` property; a boolean, number, string or array has
no property of that name. -/
def destructureUrls : JsVal → Except String JsVal
  | undefined => .error "Cannot destructure property 'urls' of 'body' as it is undefined."
  | null => .error "Cannot destructure property 'urls' of 'body' as it is null."
  | obj fields => .ok ((fields.lookup "urls").getD undefined)
  | _ => .ok undefined

end JsVal

mutual
/-- JavaScript `JSON.stringify(v)`: `undefined` writes nothing, an infinity is
written `null`, negative zero is written `0`. -/
def JsVal.stringify : JsVal → Option Json
  | .undefined => none
  | .null => some Json.null
  | .bool b => some (Json.bool b)
  | .num (JsNumber.finite mantissa exponent) => some (Json.num mantissa exponent)
  | .num JsNumber.negZero => some (Json.num 0 0)
  | .num JsNumber.posInfinity => some Json.null
  | .num JsNumber.negInfinity => some Json.null
  | .str s => some (Json.str s)
  | .arr items => some (Json.arr (stringifyItems items))
  | .obj fields => some (Json.obj (stringifyFields fields))
/-- The elements of a written array: an element that writes nothing is
written `null`. -/
def stringifyItems : List JsVal → List Json
  | [] => []
  | v :: vs => (v.stringify).getD Json.null :: stringifyItems vs
/-- The members of a written object: a property that writes nothing is
left out. -/
def stringifyFields : List (String × JsVal) → List (String × Json)
  | [] => []
  | (k, v) :: rest =>
    match v.stringify with
    | some j => (k, j) :: stringifyFields rest
    | none => stringifyFields rest
end

mutual
/-- JavaScript `JSON.parse` of a document: the value a client reads. -/
def Json.parse : Json → JsVal
  | .null => JsVal.null
  | .bool b => JsVal.bool b
  | .num mantissa exponent => JsVal.num (JsNumber.finite mantissa exponent)
  | .str s => JsVal.str s
  | .arr items => JsVal.arr (parseItems items)
  | .obj fields => JsVal.obj (parseFields fields)
/-- The elements of a parsed array. -/
def parseItems : List Json → List JsVal
  | [] => []
  | j :: js => j.parse :: parseItems js
/-- The properties of a parsed object. -/
def parseFields : List (String × Json) → List (String × JsVal)
  | [] => []
  | (k, j) :: rest => (k, j.parse) :: parseFields rest
end

mutual
/-- Whether JSON can write the value as it is: no `undefined`, negative zero
or infinity anywhere inside. -/
def JsVal.writable : JsVal → Bool
  | .undefined => false
  | .null => true
  | .bool _ => true
  | .num (JsNumber.finite _ _) => true
  | .num JsNumber.negZero => false
  | .num JsNumber.posInfinity => false
  | .num JsNumber.negInfinity => false
  | .str _ => true
  | .arr items => writableItems items
  | .obj fields => writableFields fields
/-- Whether JSON can write every element as it is. -/
def writableItems : List JsVal → Bool
  | [] => true
  | v :: vs => v.writable && writableItems vs
/-- Whether JSON can write every property value as it is. -/
def writableFields : List (String × JsVal) → Bool
  | [] => true
  | (_, v) :: rest => v.writable && writableFields rest
end

/-- The member `key` of a JSON object, if the document is an object that has
one. -/
def Json.member (j : Json) (key : String) : Option Json :=
  match j with
  | .obj fields => fields.lookup key
  | _ => none

/-! ## Requests, outbound calls and the network -/

/-- The inbound request, with `new URL(request.url)` already taken apart and
the outcome of `await request.json()` attached: a rejection (unreadable body,
text that is not JSON) with its message, or the parsed value. -/
structure Request where
  method : String
  pathname : String
  searchParams : SearchParams
  headers : Headers
  body : Option String
  json : Except String JsVal

/-- One call `fetch(url, { method, headers, body, redirect })`. -/
structure FetchCall where
  url : JsVal
  method : String
  headers : Headers
  body : Option String
  redirect : String

/-- What an outbound `fetch` resolves to.  `text` is the outcome of draining
the body: its content, or the message of the fault that interrupts it. -/
structure UpstreamResponse where
  status : Nat
  statusText : String
  headers : Headers
  text : Except String String

/-- JavaScript `res.ok`: the status is in the range 200 to 299. -/
def UpstreamResponse.ok (res : UpstreamResponse) : Bool :=
  200 ≤ res.status && res.status ≤ 299

/-- An outbound `fetch` either throws (DNS failure, connection refused,
invalid URL, ...) or resolves to a response. -/
inductive FetchOutcome where
  | fault (message : String)
  | response (res : UpstreamResponse)

/-- The network: the outcome of the `index`-th outbound call of a request.
Indexing by call lets two calls to the same URL end differently, whatever the
order in which they complete. -/
structure World where
  fetch : Nat → FetchCall → FetchOutcome

/-! ## Responses -/

/-- One element of the batch `results` array. An absent field is `none`. -/
structure BatchResult where
  url : JsVal
  ok : Bool
  status : Nat
  error : Option String
  content : Option String
  headers : Option (List (String × String))

/-- The JSON object written for one element of `results`: the keys in source
order, an absent field left out. -/
def resultJson (r : BatchResult) : Json :=
  Json.obj
    ((match r.url.stringify with
      | some j => [("url", j)]
      | none => []) ++
     [("ok", Json.bool r.ok), ("status", Json.num (Int.ofNat r.status) 0)] ++
     (match r.error with
      | some e => [("error", Json.str e)]
      | none => []) ++
     (match r.content with
      | some c => [("content", Json.str c)]
      | none => []) ++
     (match r.headers with
      | some h => [("headers", Json.obj (h.map (fun p => (p.1, Json.str p.2))))]
      | none => []))

/-- The document of `JSON.stringify({ results })`. -/
def batchDocument (results : List BatchResult) : Json :=
  Json.obj [("results", Json.arr (results.map resultJson))]

/-- A response body: `null`, a string, a string that is the text of a JSON
document, or an upstream body streamed through. -/
inductive Body where
  | null
  | text (s : String)
  | json (document : Json)
  | stream (upstream : Except String String)

/-- The `Content-Type` the `Response` constructor derives from the body: a
string has `text/plain;charset=UTF-8`, `null` and a stream have none. -/
def Body.contentType : Body → Option String
  | .null => none
  | .text _ => some "text/plain;charset=UTF-8"
  | .json _ => some "text/plain;charset=UTF-8"
  | .stream _ => none

/-- The response handed back to the client. -/
structure Response where
  status : Nat
  statusText : String
  headers : Headers
  body : Body

/-- The header list of a constructed response: the given headers are copied,
and the body's `Content-Type` is appended when they carry none. -/
def responseHeaders (contentType : Option String) (headers : Headers) : Headers :=
  match contentType with
  | some type =>
    if headers.copy.has "Content-Type" then headers.copy
    else headers.copy.append "Content-Type" type
  | none => headers.copy

/-- JavaScript `new Response(body, { status, statusText, headers })`: a
RangeError unless the status is in the range 200 to 599.  (The other check of
the constructor, a body on a null-body status, cannot fire here: the
platform's `fetch` yields no body with such a status.) -/
def newResponse (body : Body) (status : Nat) (statusText : String) (headers : Headers) :
    Except String Response :=
  if 200 ≤ status ∧ status ≤ 599 then
    .ok { status := status, statusText := statusText,
          headers := responseHeaders body.contentType headers, body := body }
  else
    .error "Responses may only be constructed with status codes in the range 200 to 599, inclusive."

/-- JavaScript `try { return r } catch (e) { return handler(e.message) }`. -/
def tryCatch (r : Except String Response) (handler : String → Except String Response) :
    Except String Response :=
  match r with
  | .ok response => .ok response
  | .error message => handler message

/-- What running a handler produces: the response (or the exception that
escapes the handler) and the outbound calls issued, in order. -/
structure Handled where
  response : Except String Response
  calls : List FetchCall

/-! ## The worker (`src/index.js`) -/

/-- The fixed value of `Access-Control-Allow-Headers`. -/
def allowHeaders : String :=
  "Content-Type, Authorization, X-Requested-With, Range, Git-Protocol, User-Agent, If-None-Match, If-Modified-Since, Cache-Control, Pragma"

/-- Source lines 7-13: stamps the five CORS headers. -/
def addCorsHeaders (headers : Headers) : Headers :=
  ((((headers.set "Access-Control-Allow-Origin" "*").set
    "Access-Control-Allow-Methods" "GET, HEAD, POST, OPTIONS").set
    "Access-Control-Allow-Headers" allowHeaders).set
    "Access-Control-Expose-Headers" "*").set
    "Access-Control-Max-Age" "86400"

/-- The five CORS headers and their fixed values. -/
def corsHeaders : List (String × String) :=
  [("Access-Control-Allow-Origin", "*"),
   ("Access-Control-Allow-Methods", "GET, HEAD, POST, OPTIONS"),
   ("Access-Control-Allow-Headers", allowHeaders),
   ("Access-Control-Expose-Headers", "*"),
   ("Access-Control-Max-Age", "86400")]

/-- A header collection carries all five CORS headers with their fixed values. -/
def HasCors (h : Headers) : Prop := ∀ p ∈ corsHeaders, h.get p.1 = some p.2

/-- Whether `name` is one of the five CORS header names (case-insensitive). -/
def isCorsName (name : String) : Bool := corsHeaders.any (fun p => Headers.named p.1 (name, ""))

/-- Source lines 16-20. -/
def handleOptions (_request : Request) : Handled :=
  let headers := addCorsHeaders Headers.empty
  { response := newResponse Body.null 204 "" headers, calls := [] }

/-- Source lines 36-45: the headers of a per-URL batch fetch. -/
def batchHeaders (request : Request) : Headers :=
  [("Accept", "application/rss+xml, application/xml, text/xml, application/atom+xml, text/html, */*"),
   ("User-Agent",
      if request.headers.has "User-Agent" then (request.headers.get "User-Agent").getD ""
      else "Sift-RSS-Fetcher/1.0")]

/-- Source lines 47-51: the per-URL outbound call. -/
def batchCall (request : Request) (url : JsVal) : FetchCall :=
  { url := url, method := "GET", headers := batchHeaders request, body := none,
    redirect := "follow" }

/-- Source lines 34-69: the callback mapped over `urls`, for the element at
`index`. -/
def fetchOne (world : World) (request : Request) (index : Nat) (url : JsVal) : BatchResult :=
  match world.fetch index (batchCall request url) with
  | .fault message =>
    { url := url, ok := false, status := 500, error := some message, content := none,
      headers := none }
  | .response res =>
    if !res.ok then
      { url := url, ok := false, status := res.status, error := some res.statusText,
        content := none, headers := none }
    else
      match res.text with
      | .error message =>
        { url := url, ok := false, status := 500, error := some message, content := none,
          headers := none }
      | .ok content =>
        { url := url, ok := true, status := res.status, error := none, content := some content,
          headers := some (objectFromEntries res.headers.entries) }

/-- Source lines 22-82. -/
def handleBatch (world : World) (request : Request) : Handled :=
  let caught := fun (message : String) =>
    newResponse (Body.text ("Batch Error: " ++ message)) 500 "" (addCorsHeaders Headers.empty)
  match request.json with
  | .error message => { response := caught message, calls := [] }
  | .ok body =>
    match body.destructureUrls with
    | .error message => { response := caught message, calls := [] }
    | .ok urls =>
      if !urls.truthy || !urls.isArray then
        let headers := addCorsHeaders Headers.empty
        { response :=
            tryCatch
              (newResponse (Body.text "Invalid Request: \"urls\" must be an array") 400 "" headers)
              caught,
          calls := [] }
      else
        let results := urls.items.mapIdx (fetchOne world request)
        let built :=
          match newResponse (Body.json (batchDocument results)) 200 ""
              [("Content-Type", "application/json")] with
          | .ok response =>
            .ok { response with headers := addCorsHeaders response.headers }
          | .error message => .error message
        { response := tryCatch built caught, calls := urls.items.map (batchCall request) }

/-- Source lines 96-106: the sanitised target. -/
def finalTargetUrl (targetUrl : String) : String :=
  let stripped := if startsWith targetUrl "/" then substring1 targetUrl else targetUrl
  if !startsWith stripped "http://" && !startsWith stripped "https://" then
    "https://" ++ stripped
  else stripped

/-- Source lines 109-122: the headers forwarded to the target. -/
def originalHeaders (request : Request) : Headers :=
  let cleaned :=
    (((((request.headers.copy.delete "Host").delete "Referer").delete "Origin").delete
      "cf-connecting-ip").delete "x-forwarded-for").delete "x-real-ip"
  if !cleaned.has "User-Agent" then cleaned.set "User-Agent" "Sift-Proxy/1.0" else cleaned

/-- Source lines 130-140: the outbound call of the single proxy. -/
def proxyCall (request : Request) (targetUrl : String) : FetchCall :=
  { url := JsVal.str (finalTargetUrl targetUrl), method := request.method,
    headers := originalHeaders request,
    body := if request.method ≠ "GET" ∧ request.method ≠ "HEAD" then request.body else none,
    redirect := "follow" }

/-- Source lines 142-147: the headers of the proxied response. -/
def newHeaders (response : UpstreamResponse) : Headers :=
  ((addCorsHeaders response.headers.copy).delete "X-Frame-Options").delete
    "Content-Security-Policy"

/-- Source lines 84-160. -/
def handleProxy (world : World) (request : Request) : Handled :=
  let missing : Handled :=
    let headers := addCorsHeaders Headers.empty
    { response := newResponse (Body.text "Missing \"url\" parameter") 400 "" headers, calls := [] }
  match request.searchParams.get "url" with
  | none => missing
  | some targetUrl =>
    if targetUrl = "" then missing
    else
      let caught := fun (message : String) =>
        newResponse (Body.text ("Proxy Error: " ++ message)) 502 "" (addCorsHeaders Headers.empty)
      let call := proxyCall request targetUrl
      match world.fetch 0 call with
      | .fault message => { response := caught message, calls := [call] }
      | .response response =>
        { response :=
            tryCatch
              (newResponse (Body.stream response.text) response.status response.statusText
                (newHeaders response))
              caught,
          calls := [call] }

/-- The three handlers the dispatcher can return from. -/
inductive Handler where
  | options
  | batch
  | proxy
  deriving DecidableEq

/-- Running a handler on a request. -/
def Handler.run (handler : Handler) (world : World) (request : Request) : Handled :=
  match handler with
  | .options => handleOptions request
  | .batch => handleBatch world request
  | .proxy => handleProxy world request

/-- Source lines 166-175: the branch the dispatcher takes. -/
def selectHandler (request : Request) : Handler :=
  if request.method = "OPTIONS" then Handler.options
  else if request.pathname = "/batch" ∧ request.method = "POST" then Handler.batch
  else Handler.proxy

/-- Source lines 162-177: the dispatcher, `export default { fetch }`. -/
def fetch (world : World) (request : Request) : Handled :=
  if request.method = "OPTIONS" then handleOptions request
  else if request.pathname = "/batch" ∧ request.method = "POST" then handleBatch world request
  else handleProxy world request

/-! ## Spec-worded definitions and sample inputs -/

/-- Spec wording (4.4 step 2): strip exactly one leading path separator if
present; if what remains lacks an `http://` or `https://` prefix, prepend
`https://`. -/
def specTarget (t : String) : String :=
  let rest : List Char :=
    match t.data with
    | c :: cs => if c = '/' then cs else c :: cs
    | [] => []
  if "http://".data.isPrefixOf rest || "https://".data.isPrefixOf rest then ⟨rest⟩
  else ⟨"https://".data ++ rest⟩

/-- Spec wording (4.4 step 5): copy the upstream headers, then strip
`X-Frame-Options` and `Content-Security-Policy`, then inject CORS last. -/
def specProxyHeaders (upstream : Headers) : Headers :=
  addCorsHeaders ((upstream.copy.delete "X-Frame-Options").delete "Content-Security-Policy")

/-- The headers of the worker's own plain-text answers (400, 500, 502): the
CORS headers and the `Content-Type` of a string body. -/
def plainTextHeaders : Headers :=
  responseHeaders (some "text/plain;charset=UTF-8") (addCorsHeaders Headers.empty)

/-- The inbound headers the single proxy removes before forwarding. -/
def strippedRequestHeaders : List String :=
  ["Host", "Referer", "Origin", "cf-connecting-ip", "x-forwarded-for", "x-real-ip"]

/-- Whether `name` is one of the removed inbound headers (case-insensitive). -/
def isStripped (name : String) : Bool :=
  strippedRequestHeaders.any (fun n => Headers.named n (name, ""))

/-- Whether `name` is `X-Frame-Options` or `Content-Security-Policy`
(case-insensitive). -/
def isFrameHeader (name : String) : Bool :=
  Headers.named "X-Frame-Options" (name, "") || Headers.named "Content-Security-Policy" (name, "")

/-- An upstream answer with a status no `Response` can be constructed with. -/
def deniedResponse : UpstreamResponse :=
  { status := 999, statusText := "Request denied", headers := [("Server", "origin")],
    text := .ok "" }

/-- An upstream answer that carries framing headers and its own CORS header. -/
def framedResponse : UpstreamResponse :=
  { status := 404, statusText := "Not Found",
    headers := [("X-Frame-Options", "DENY"), ("content-security-policy", "default-src 'none'"),
                ("Access-Control-Allow-Origin", "https://other.example"),
                ("Content-Type", "text/html")],
    text := .ok "<h1>Not Found</h1>" }

/-- An inbound request of a git client going through the single proxy. -/
def gitRequest : Request :=
  { method := "POST", pathname := "/", searchParams := [("url", "github.com/o/r.git/git-upload-pack")],
    headers := [("Host", "proxy.example"), ("Origin", "https://app.example"),
                ("Authorization", "Basic dTpw"), ("Git-Protocol", "version=2"),
                ("X-Forwarded-For", "203.0.113.7"),
                ("Content-Type", "application/x-git-upload-pack-request")],
    body := some "0000", json := .error "Unexpected token" }

/-- The network of the batch-isolation scenario: call 0 is answered 200, call 1
is refused, call 2 is answered 404. -/
def isolationWorld : World :=
  { fetch := fun index _ =>
      match index with
      | 0 => FetchOutcome.response
          { status := 200, statusText := "OK", headers := [("Content-Type", "application/rss+xml")],
            text := .ok "<rss/>" }
      | 1 => FetchOutcome.fault "connection refused"
      | _ => FetchOutcome.response
          { status := 404, statusText := "Not Found", headers := [], text := .ok "" } }

/-- The URLs of the batch-isolation scenario. -/
def isolationUrls : List JsVal :=
  [JsVal.str "https://a.example/feed", JsVal.str "https://b.example/feed",
   JsVal.str "https://c.example/feed"]

/-- The parsed `urls` of a batch body whose only URL is the number literal
`1e400`: out of the range of a double, it is read as `Infinity`. -/
def overflowUrls : List JsVal := [JsVal.num JsNumber.posInfinity]

/-- A network on which every outbound call is refused. -/
def refusingWorld : World := { fetch := fun _ _ => FetchOutcome.fault "connection refused" }

/-- A network on which every outbound call gets the same response. -/
def constantWorld (res : UpstreamResponse) : World :=
  { fetch := fun _ _ => FetchOutcome.response res }

/-- A request with the given method, path and query, no headers and no body. -/
def plainRequest (method pathname : String) (query : SearchParams) : Request :=
  { method := method, pathname := pathname, searchParams := query, headers := [],
    body := none, json := .error "Unexpected end of JSON input" }

/-- A `POST /batch` request whose `request.json()` has the given outcome. -/
def batchRequest (json : Except String JsVal) : Request :=
  { method := "POST", pathname := "/batch", searchParams := [], headers := [],
    body := none, json := json }

/-! ### Header-list lemmas -/

theorem asciiLower_idem (c : Char) : asciiLower (asciiLower c) = asciiLower c := by
  unfold asciiLower
  by_cases h : 65 ≤ c.toNat ∧ c.toNat ≤ 90
  · simp only [h, and_self, if_true]
    obtain ⟨h1, h2⟩ := h
    have hc : c = Char.ofNat c.toNat := (Char.ofNat_toNat c).symm
    generalize c.toNat = k at hc h1 h2
    subst hc
    interval_cases k <;> decide
  · simp only [h, if_false]

theorem lowerName_idem (s : String) : lowerName (lowerName s) = lowerName s := by
  simp [lowerName, List.map_map, Function.comp_def, asciiLower_idem]


namespace Headers

theorem named_eq (name : String) (p : String × String) :
    named name p = decide (lowerName p.1 = lowerName name) := rfl

theorem named_lower (name : String) (p : String × String) :
    named (lowerName name) p = named name p := by
  simp [named, lowerName_idem]

theorem values_lower (h : Headers) (name : String) :
    values h (lowerName name) = values h name := by
  simp only [values]
  congr 1
  apply List.filter_congr
  intro p _
  exact named_lower name p

theorem values_nil (name : String) : values [] name = [] := rfl

theorem values_cons (p : String × String) (h : Headers) (name : String) :
    values (p :: h) name = if named name p then p.2 :: values h name else values h name := by
  by_cases hp : named name p <;> simp [values, List.filter_cons, hp]

theorem values_append_list (h k : Headers) (name : String) :
    values (h ++ k) name = values h name ++ values k name := by
  simp [values]

theorem intercalate_single (sep v : String) : sep.intercalate [v] = v := by
  simp [String.intercalate, String.intercalate.go]

theorem get_of_values_nil {h : Headers} {name : String} (hv : values h name = []) :
    get h name = none := by
  simp [get, hv]

theorem get_of_values_single {h : Headers} {name v : String} (hv : values h name = [v]) :
    get h name = some v := by
  simp [get, hv, intercalate_single]

theorem get_congr {h k : Headers} {name : String} (hv : values h name = values k name) :
    get h name = get k name := by
  simp [get, hv]

theorem get_eq_none_iff (h : Headers) (name : String) :
    get h name = none ↔ values h name = [] := by
  unfold get
  cases values h name <;> simp

theorem has_eq_false_iff (h : Headers) (name : String) :
    has h name = false ↔ values h name = [] := by
  induction h with
  | nil => simp [has, values]
  | cons p h ih =>
    by_cases hp : named name p
    · simp [has, values, List.filter_cons, hp]
    · simp only [has, List.any_cons] at ih ⊢
      simp [values, List.filter_cons, hp] at ih ⊢

theorem has_eq_true_iff (h : Headers) (name : String) :
    has h name = true ↔ values h name ≠ [] := by
  rw [Ne, ← has_eq_false_iff]
  cases has h name <;> simp

theorem has_iff_get (h : Headers) (name : String) :
    has h name = true ↔ (get h name).isSome = true := by
  rw [has_eq_true_iff, Ne, ← get_eq_none_iff]
  cases get h name <;> simp

theorem values_delete (h : Headers) (name m : String) :
    values (delete h name) m = if lowerName m = lowerName name then [] else values h m := by
  induction h with
  | nil => simp [delete, values]
  | cons p h ih =>
    simp only [delete] at ih
    by_cases hp : named name p
    · have hd : delete (p :: h) name = delete h name := by
        simp [delete, List.filter_cons, hp]
      rw [hd, values_cons]
      simp only [delete]
      rw [ih]
      by_cases hm : lowerName m = lowerName name
      · simp [hm]
      · have : named m p = false := by
          rw [named_eq] at hp ⊢
          simp only [decide_eq_true_eq] at hp
          simp [hp, Ne.symm hm]
        simp [hm, this]
    · have hd : delete (p :: h) name = p :: delete h name := by
        simp [delete, List.filter_cons, hp]
      rw [hd, values_cons, values_cons]
      simp only [delete]
      rw [ih]
      by_cases hm : lowerName m = lowerName name
      · have : named m p = false := by
          rw [named_eq] at hp ⊢
          simp only [decide_eq_true_eq] at hp
          simp [hm, hp]
        simp [hm, this]
      · simp [hm]

theorem values_setFirst (h : Headers) (name value m : String) :
    values (setFirst name value h) m =
      if lowerName m = lowerName name then (if has h name then [value] else [])
      else values h m := by
  induction h with
  | nil => simp [setFirst, values, has]
  | cons p h ih =>
    by_cases hp : named name p
    · have hs : setFirst name value (p :: h) = (p.1, value) :: delete h name := by
        simp [setFirst, hp]
      have hh : has (p :: h) name = true := by simp [has, hp]
      rw [hs, values_cons, values_delete, hh]
      have hp' : lowerName p.1 = lowerName name := by simpa [named_eq] using hp
      by_cases hm : lowerName m = lowerName name
      · simp [hm, named_eq, hp']
      · have : named m (p.1, value) = false := by
          simp [named_eq, hp', Ne.symm hm]
        have h2 : named m p = false := by simp [named_eq, hp', Ne.symm hm]
        simp [hm, this, values_cons, h2]
    · have hs : setFirst name value (p :: h) = p :: setFirst name value h := by
        simp [setFirst, hp]
      have hh : has (p :: h) name = has h name := by simp [has, hp]
      rw [hs, values_cons, ih, hh, values_cons]
      have hp' : ¬ lowerName p.1 = lowerName name := by simpa [named_eq] using hp
      by_cases hm : lowerName m = lowerName name
      · have : named m p = false := by simp [named_eq, hm, hp']
        simp [hm, this]
      · simp [hm]

theorem values_set (h : Headers) (name value m : String) :
    values (set h name value) m =
      if lowerName m = lowerName name then [value] else values h m := by
  unfold set
  by_cases hh : has h name = true
  · simp only [hh, if_true]
    rw [values_setFirst, hh]
    simp
  · have hf : has h name = false := by simpa using hh
    simp only [hf]
    simp only [append, Bool.false_eq_true, if_false]
    rw [values_append_list, values_cons, values_nil]
    by_cases hm : lowerName m = lowerName name
    · have hv : values h m = [] := by
        rw [← values_lower, hm, values_lower]
        exact (has_eq_false_iff h name).1 hf
      rw [hv]
      simp [hm, named_eq]
    · simp [hm, named_eq, Ne.symm hm]

theorem get_set (h : Headers) (name value m : String) :
    get (set h name value) m =
      if lowerName m = lowerName name then some value else get h m := by
  by_cases hm : lowerName m = lowerName name
  · simp only [hm, if_true]
    apply get_of_values_single
    simp [values_set, hm]
  · simp only [hm, if_false]
    apply get_congr
    simp [values_set, hm]

theorem get_delete (h : Headers) (name m : String) :
    get (delete h name) m = if lowerName m = lowerName name then none else get h m := by
  by_cases hm : lowerName m = lowerName name
  · simp only [hm, if_true]
    apply get_of_values_nil
    simp [values_delete, hm]
  · simp only [hm, if_false]
    apply get_congr
    simp [values_delete, hm]

theorem copy_eq_entries (h : Headers) : copy h = entries h := by
  have key : ∀ (l acc : Headers),
      l.foldl (fun acc p => acc.append p.1 p.2) acc = acc ++ l := by
    intro l
    induction l with
    | nil => intro acc; simp
    | cons p l ih =>
      intro acc
      rw [List.foldl_cons, ih]
      simp [append]
  simpa [copy, empty] using key (entries h) []

theorem mem_sortedNames (h : Headers) (k : String) :
    k ∈ sortedNames h ↔ ∃ p ∈ h, lowerName p.1 = k := by
  unfold sortedNames
  rw [(List.perm_insertionSort _ _).mem_iff, List.mem_dedup, List.mem_map]

theorem nodup_sortedNames (h : Headers) : (sortedNames h).Nodup :=
  (List.perm_insertionSort _ _).nodup_iff.2 (List.nodup_dedup _)

theorem mem_sortedNames_iff_values (h : Headers) (m : String) :
    lowerName m ∈ sortedNames h ↔ values h m ≠ [] := by
  rw [mem_sortedNames, ← has_eq_true_iff]
  simp [has, named_eq]

theorem values_flatMap (l : List String) (f : String → Headers) (m : String) :
    values (l.flatMap f) m = l.flatMap (fun k => values (f k) m) := by
  induction l with
  | nil => rfl
  | cons k l ih => simp [List.flatMap_cons, values_append_list, ih]

theorem flatMap_select (l : List String) (a : String) (F : String → List String)
    (hl : l.Nodup) :
    l.flatMap (fun k => if k = a then F k else []) = if a ∈ l then F a else [] := by
  induction l with
  | nil => simp
  | cons k l ih =>
    obtain ⟨hk, hl'⟩ := List.nodup_cons.1 hl
    rw [List.flatMap_cons, ih hl']
    by_cases hka : k = a
    · subst hka
      simp [hk]
    · have : ¬ a = k := fun e => hka e.symm
      simp [hka, this]

theorem values_entriesOf (h : Headers) (k m : String) (hk : lowerName k = k) :
    values (entriesOf h k) m = if k = lowerName m then combined h k else [] := by
  have hn : ∀ v : String, named m (k, v) = decide (k = lowerName m) := by
    intro v
    rw [named_eq]
    simp [hk]
  unfold entriesOf
  induction combined h k with
  | nil => simp [values]
  | cons v vs ih =>
    rw [List.map_cons, values_cons, ih, hn]
    by_cases hm : k = lowerName m <;> simp [hm]

theorem values_entries (h : Headers) (m : String) :
    values (entries h) m =
      if lowerName m ∈ sortedNames h then combined h (lowerName m) else [] := by
  unfold entries
  rw [values_flatMap]
  have hfun : ∀ k ∈ sortedNames h,
      values (entriesOf h k) m = if k = lowerName m then combined h k else [] := by
    intro k hk
    obtain ⟨p, _, hp⟩ := (mem_sortedNames h k).1 hk
    exact values_entriesOf h k m (by rw [← hp, lowerName_idem])
  rw [List.flatMap_congr hfun]
  exact flatMap_select (sortedNames h) (lowerName m) (combined h) (nodup_sortedNames h)

theorem get_copy (h : Headers) (m : String) : get (copy h) m = get h m := by
  rw [copy_eq_entries]
  by_cases hmem : lowerName m ∈ sortedNames h
  · have hv : values (entries h) m = combined h (lowerName m) := by
      rw [values_entries, if_pos hmem]
    have hne : values h m ≠ [] := (mem_sortedNames_iff_values h m).1 hmem
    unfold combined at hv
    by_cases hc : lowerName m = "set-cookie"
    · rw [if_pos hc, values_lower] at hv
      exact get_congr hv
    · rw [if_neg hc] at hv
      have hg : get h (lowerName m) = get h m := by
        simp [get, values_lower]
      rw [hg] at hv
      cases hgm : get h m with
      | none => exact absurd ((get_eq_none_iff h m).1 hgm) hne
      | some v =>
        rw [hgm] at hv
        exact get_of_values_single hv
  · have hv : values (entries h) m = [] := by
      rw [values_entries, if_neg hmem]
    have hnil : values h m = [] := by
      by_contra hne
      exact hmem ((mem_sortedNames_iff_values h m).2 hne)
    rw [get_of_values_nil hv, get_of_values_nil hnil]

theorem has_copy (h : Headers) (m : String) : has (copy h) m = has h m := by
  have h1 := has_iff_get (copy h) m
  have h2 := has_iff_get h m
  rw [get_copy] at h1
  cases hc : has (copy h) m <;> cases hh : has h m <;> simp_all

end Headers

/-! ### The CORS header injector -/

theorem get_addCorsHeaders (h : Headers) (m : String) :
    (addCorsHeaders h).get m =
      if lowerName m = lowerName "Access-Control-Max-Age" then some "86400"
      else if lowerName m = lowerName "Access-Control-Expose-Headers" then some "*"
      else if lowerName m = lowerName "Access-Control-Allow-Headers" then some allowHeaders
      else if lowerName m = lowerName "Access-Control-Allow-Methods" then
        some "GET, HEAD, POST, OPTIONS"
      else if lowerName m = lowerName "Access-Control-Allow-Origin" then some "*"
      else h.get m := by
  simp only [addCorsHeaders, Headers.get_set]

theorem hasCors_addCorsHeaders (h : Headers) : HasCors (addCorsHeaders h) := by
  intro p hp
  simp only [corsHeaders, List.mem_cons, List.mem_singleton, List.not_mem_nil, or_false] at hp
  rcases hp with rfl | rfl | rfl | rfl | rfl
  · rw [get_addCorsHeaders, if_neg (by decide), if_neg (by decide), if_neg (by decide),
      if_neg (by decide), if_pos rfl]
  · rw [get_addCorsHeaders, if_neg (by decide), if_neg (by decide), if_neg (by decide),
      if_pos rfl]
  · rw [get_addCorsHeaders, if_neg (by decide), if_neg (by decide), if_pos rfl]
  · rw [get_addCorsHeaders, if_neg (by decide), if_pos rfl]
  · rw [get_addCorsHeaders, if_pos rfl]

theorem get_addCorsHeaders_other (h : Headers) (m : String) (hm : isCorsName m = false) :
    (addCorsHeaders h).get m = h.get m := by
  simp only [isCorsName, corsHeaders, List.any_cons, List.any_nil, Headers.named_eq,
    Bool.or_false, Bool.or_eq_false_iff, decide_eq_false_iff_not] at hm
  obtain ⟨h1, h2, h3, h4, h5⟩ := hm
  rw [get_addCorsHeaders, if_neg h5, if_neg h4, if_neg h3, if_neg h2, if_neg h1]

theorem newResponse_ok (body : Body) (status : Nat) (statusText : String) (headers : Headers)
    (h1 : 200 ≤ status) (h2 : status ≤ 599) :
    newResponse body status statusText headers =
      .ok { status := status, statusText := statusText,
            headers := responseHeaders body.contentType headers, body := body } := by
  simp [newResponse, h1, h2]

theorem newResponse_error (body : Body) (status : Nat) (statusText : String) (headers : Headers)
    (h : ¬ (200 ≤ status ∧ status ≤ 599)) :
    ∃ message, newResponse body status statusText headers = .error message := by
  simp [newResponse, h]

theorem hasCors_copy {h : Headers} (hc : HasCors h) : HasCors h.copy := by
  intro p hp
  rw [Headers.get_copy]
  exact hc p hp

theorem get_append_other (h : Headers) (name value m : String)
    (hm : lowerName m ≠ lowerName name) : (h.append name value).get m = h.get m := by
  apply Headers.get_congr
  rw [Headers.append, Headers.values_append_list, Headers.values_cons, Headers.values_nil]
  have : Headers.named m (name, value) = false := by
    simp [Headers.named_eq, Ne.symm hm]
  simp [this]

theorem get_responseHeaders_other (contentType : Option String) (h : Headers) (m : String)
    (hm : lowerName m ≠ lowerName "Content-Type") :
    (responseHeaders contentType h).get m = h.get m := by
  unfold responseHeaders
  cases contentType with
  | none => exact Headers.get_copy h m
  | some type =>
    simp only []
    split
    · exact Headers.get_copy h m
    · rw [get_append_other _ _ _ _ hm]
      exact Headers.get_copy h m

theorem hasCors_responseHeaders (contentType : Option String) {h : Headers} (hc : HasCors h) :
    HasCors (responseHeaders contentType h) := by
  intro p hp
  have hne : lowerName p.1 ≠ lowerName "Content-Type" := by
    simp only [corsHeaders, List.mem_cons, List.mem_singleton, List.not_mem_nil, or_false] at hp
    rcases hp with rfl | rfl | rfl | rfl | rfl <;> decide
  rw [get_responseHeaders_other _ _ _ hne]
  exact hc p hp

theorem hasCors_plainTextHeaders : HasCors plainTextHeaders :=
  hasCors_responseHeaders _ (hasCors_addCorsHeaders _)

theorem get_plainTextHeaders_other (m : String) (hc : isCorsName m = false)
    (hm : lowerName m ≠ lowerName "Content-Type") : plainTextHeaders.get m = none := by
  unfold plainTextHeaders
  rw [get_responseHeaders_other _ _ _ hm, get_addCorsHeaders_other _ _ hc]
  rfl

theorem get_plainTextHeaders_contentType :
    plainTextHeaders.get "Content-Type" = some "text/plain;charset=UTF-8" := by
  have hg : (addCorsHeaders Headers.empty).copy.get "Content-Type" = none := by
    rw [Headers.get_copy, get_addCorsHeaders_other _ _ (by decide)]
    rfl
  have hh : (addCorsHeaders Headers.empty).copy.has "Content-Type" = false := by
    have hi := Headers.has_iff_get (addCorsHeaders Headers.empty).copy "Content-Type"
    rw [hg] at hi
    cases hx : (addCorsHeaders Headers.empty).copy.has "Content-Type" with
    | false => rfl
    | true => simp [hx] at hi
  have hv := (Headers.get_eq_none_iff _ _).1 hg
  unfold plainTextHeaders responseHeaders
  simp only [hh, Bool.false_eq_true, if_false]
  apply Headers.get_of_values_single
  rw [Headers.append, Headers.values_append_list, hv, Headers.values_cons, Headers.values_nil]
  simp [Headers.named_eq]

theorem responseHeaders_text (s : String) (h : Headers) :
    responseHeaders (Body.text s).contentType h
      = responseHeaders (some "text/plain;charset=UTF-8") h := rfl

theorem responseHeaders_null (h : Headers) :
    responseHeaders Body.null.contentType h = h.copy := rfl

theorem responseHeaders_stream (u : Except String String) (h : Headers) :
    responseHeaders (Body.stream u).contentType h = h.copy := rfl


theorem cors_of_handled {x : Handled} {status : Nat} {statusText : String} {headers : Headers}
    {body : Body} {calls : List FetchCall}
    (h : x = { response := .ok { status := status, statusText := statusText,
                                 headers := headers, body := body },
               calls := calls })
    (hc : HasCors headers) :
    ∃ response, x.response = .ok response ∧ HasCors response.headers := by
  subst h
  exact ⟨_, rfl, hc⟩

theorem get_response_headers {x : Handled} {status : Nat} {statusText : String}
    {headers : Headers} {body : Body} {calls : List FetchCall}
    (h : x = { response := .ok { status := status, statusText := statusText,
                                 headers := headers, body := body },
               calls := calls }) :
    ∃ response, x.response = .ok response ∧ response.status = status ∧
      response.statusText = statusText ∧ response.body = body ∧
      response.headers = headers ∧ x.calls = calls := by
  subst h
  exact ⟨_, rfl, rfl, rfl, rfl, rfl, rfl⟩


/-! ## The claims -/

/-- C1: the dispatcher is total and runs exactly the handler its branch
selects: `handleOptions` exactly when the method is `OPTIONS`, whatever the
path; `handleBatch` exactly when the method is not `OPTIONS`, the path is
`/batch` and the method is `POST`; `handleProxy` in every other case, in
particular for `GET /batch`, `POST /batch/` and `POST /other`. -/
theorem fetch_selects_handler (world : World) (request : Request) :
    fetch world request = (selectHandler request).run world request ∧
    (selectHandler request = Handler.options ↔ request.method = "OPTIONS") ∧
    (selectHandler request = Handler.batch ↔
      request.method ≠ "OPTIONS" ∧ request.pathname = "/batch" ∧ request.method = "POST") ∧
    (selectHandler request = Handler.proxy ↔
      request.method ≠ "OPTIONS" ∧ ¬ (request.pathname = "/batch" ∧ request.method = "POST")) ∧
    (request.method = "OPTIONS" → fetch world request = handleOptions request) ∧
    (request.method = "POST" → request.pathname = "/batch" →
      fetch world request = handleBatch world request) ∧
    (request.method = "GET" → request.pathname = "/batch" →
      fetch world request = handleProxy world request) ∧
    (request.method = "POST" → request.pathname = "/batch/" →
      fetch world request = handleProxy world request) ∧
    (request.method = "POST" → request.pathname = "/other" →
      fetch world request = handleProxy world request) := by
  refine ⟨?_, ?_, ?_, ?_, ?_, ?_, ?_, ?_, ?_⟩
  · unfold fetch selectHandler
    by_cases h : request.method = "OPTIONS"
    · simp [h, Handler.run]
    · by_cases hb : request.pathname = "/batch" ∧ request.method = "POST"
      · simp only [if_neg h, if_pos hb, Handler.run]
      · simp only [if_neg h, if_neg hb, Handler.run]
  · unfold selectHandler
    by_cases h : request.method = "OPTIONS"
    · simp [h]
    · by_cases hb : request.pathname = "/batch" ∧ request.method = "POST"
      · simp [h, hb]
      · simp only [if_neg h, if_neg hb]
        simp [h]
  · unfold selectHandler
    by_cases h : request.method = "OPTIONS"
    · simp [h]
    · by_cases hb : request.pathname = "/batch" ∧ request.method = "POST"
      · simp [hb]
      · simp only [if_neg h, if_neg hb]
        constructor
        · intro e
          cases e
        · intro e
          exact absurd e.2 hb
  · unfold selectHandler
    by_cases h : request.method = "OPTIONS"
    · simp [h]
    · by_cases hb : request.pathname = "/batch" ∧ request.method = "POST"
      · simp only [if_neg h, if_pos hb]
        constructor
        · intro e
          cases e
        · intro e
          exact absurd hb e.2
      · simp only [if_neg h, if_neg hb]
        exact ⟨fun _ => ⟨h, hb⟩, fun _ => trivial⟩
  · intro h
    simp [fetch, h]
  · intro hm hp
    simp [fetch, hm, hp]
  · intro hm hp
    simp [fetch, hm, hp]
  · intro hm hp
    simp [fetch, hm, hp]
  · intro hm hp
    simp [fetch, hm, hp]

/-- C10: a request with method `OPTIONS` is answered with status 204, a null
body and the CORS headers, without any outbound fetch, and the answer is the
same for every path, query, header set, body and network. -/
theorem options_preflight (world : World) (request : Request)
    (h : request.method = "OPTIONS") :
    (fetch world request).calls = [] ∧
    (∃ response, (fetch world request).response = .ok response ∧
      response.status = 204 ∧ response.body = Body.null ∧ HasCors response.headers) ∧
    (∀ (world2 : World) (request2 : Request), request2.method = "OPTIONS" →
      fetch world2 request2 = fetch world request) := by
  have hf : ∀ (w : World) (r : Request), r.method = "OPTIONS" →
      fetch w r = { response := .ok { status := 204, statusText := "",
                                      headers := (addCorsHeaders Headers.empty).copy,
                                      body := Body.null },
                    calls := [] } := by
    intro w r hr
    simp [fetch, hr, handleOptions, newResponse, responseHeaders_null]
  refine ⟨?_, ?_, ?_⟩
  · rw [hf world request h]
  · rw [hf world request h]
    exact ⟨_, rfl, rfl, rfl, hasCors_copy (hasCors_addCorsHeaders _)⟩
  · intro w2 r2 h2
    rw [hf world request h, hf w2 r2 h2]

/-- C10 at a concrete input: `OPTIONS /batch?url=x` on a network where every
call would be refused. -/
theorem options_preflight_witness :
    (plainRequest "OPTIONS" "/batch" [("url", "x")]).method = "OPTIONS" ∧
    (fetch refusingWorld (plainRequest "OPTIONS" "/batch" [("url", "x")])).calls = [] ∧
    (∃ response,
      (fetch refusingWorld (plainRequest "OPTIONS" "/batch" [("url", "x")])).response
        = .ok response ∧
      response.status = 204 ∧ response.body = Body.null ∧ HasCors response.headers) :=
  ⟨rfl,
   (options_preflight refusingWorld (plainRequest "OPTIONS" "/batch" [("url", "x")]) rfl).1,
   (options_preflight refusingWorld (plainRequest "OPTIONS" "/batch" [("url", "x")]) rfl).2.1⟩

/-! ### The single proxy handler -/

theorem handleProxy_missing (world : World) (request : Request)
    (h : request.searchParams.get "url" = none ∨ request.searchParams.get "url" = some "") :
    handleProxy world request =
      { response := .ok { status := 400, statusText := "",
                          headers := plainTextHeaders,
                          body := Body.text "Missing \"url\" parameter" },
        calls := [] } := by
  rcases h with h | h <;>
    simp [handleProxy, h, newResponse, responseHeaders_text, plainTextHeaders]

theorem handleProxy_forward (world : World) (request : Request) (t : String)
    (h : request.searchParams.get "url" = some t) (ht : t ≠ "") :
    handleProxy world request =
      match world.fetch 0 (proxyCall request t) with
      | .fault message =>
        { response := newResponse (Body.text ("Proxy Error: " ++ message)) 502 ""
            (addCorsHeaders Headers.empty),
          calls := [proxyCall request t] }
      | .response response =>
        { response :=
            tryCatch
              (newResponse (Body.stream response.text) response.status response.statusText
                (newHeaders response))
              (fun message => newResponse (Body.text ("Proxy Error: " ++ message)) 502 ""
                (addCorsHeaders Headers.empty)),
          calls := [proxyCall request t] } := by
  simp only [handleProxy, h, if_neg ht]

theorem handleProxy_calls (world : World) (request : Request) (t : String)
    (h : request.searchParams.get "url" = some t) (ht : t ≠ "") :
    (handleProxy world request).calls = [proxyCall request t] := by
  rw [handleProxy_forward world request t h ht]
  cases world.fetch 0 (proxyCall request t) <;> rfl

theorem proxyError_ne_missing (message : String) :
    "Proxy Error: " ++ message ≠ "Missing \"url\" parameter" := by
  intro h
  have := congrArg String.data h
  simp [String.data_append] at this

/-- A response of the 502 path, for any message. -/
theorem caught_proxy (message : String) :
    newResponse (Body.text ("Proxy Error: " ++ message)) 502 "" (addCorsHeaders Headers.empty) =
      .ok { status := 502, statusText := "", headers := plainTextHeaders,
            body := Body.text ("Proxy Error: " ++ message) } := by
  simp [newResponse, responseHeaders_text, plainTextHeaders]

theorem stripped_data (t : String) :
    (if startsWith t "/" = true then substring1 t else t).data =
      (match t.data with
        | c :: cs => if c = '/' then cs else c :: cs
        | [] => []) := by
  have h1 : "/".data = ['/'] := rfl
  obtain ⟨cs⟩ := t
  cases cs with
  | nil => rfl
  | cons c cs =>
    by_cases hc : c = '/'
    · subst hc
      simp [startsWith, substring1, h1, List.isPrefixOf]
    · have hb : (c == '/') = false := by simpa using hc
      have hc' : ¬ '/' = c := fun e => hc e.symm
      simp [startsWith, h1, List.isPrefixOf, hb, hc, hc']

theorem finalTargetUrl_eq_specTarget (t : String) : finalTargetUrl t = specTarget t := by
  have hd := stripped_data t
  unfold finalTargetUrl specTarget
  simp only []
  rw [← hd]
  generalize (if startsWith t "/" = true then substring1 t else t) = s
  simp only [startsWith]
  by_cases hp : "http://".data.isPrefixOf s.data = true
  · simp [hp]
  · by_cases hq : "https://".data.isPrefixOf s.data = true
    · simp [hq]
    · have hp' : "http://".data.isPrefixOf s.data = false := Bool.eq_false_iff.2 hp
      have hq' : "https://".data.isPrefixOf s.data = false := Bool.eq_false_iff.2 hq
      simp only [hp', hq', Bool.not_false, Bool.and_self, if_true, Bool.or_self,
        Bool.false_eq_true, if_false]
      apply String.ext
      simp [String.data_append]

theorem startsWith_append_self (p s : String) : startsWith (p ++ s) p = true := by
  simp [startsWith, String.data_append, List.isPrefixOf_iff_prefix]

theorem finalTargetUrl_scheme (t : String) :
    startsWith (finalTargetUrl t) "http://" = true ∨
      startsWith (finalTargetUrl t) "https://" = true := by
  unfold finalTargetUrl
  generalize (if startsWith t "/" = true then substring1 t else t) = s
  simp only []
  by_cases hp : startsWith s "http://" = true
  · simp [hp]
  · by_cases hq : startsWith s "https://" = true
    · simp [hq]
    · have hp' : startsWith s "http://" = false := Bool.eq_false_iff.2 hp
      have hq' : startsWith s "https://" = false := Bool.eq_false_iff.2 hq
      simp only [hp', hq', Bool.not_false, Bool.and_self, if_true]
      exact Or.inr (startsWith_append_self _ _)

theorem no_leading_slash (s : String)
    (h : startsWith s "http://" = true ∨ startsWith s "https://" = true) :
    startsWith s "/" = false := by
  have h1 : "/".data = ['/'] := rfl
  have h2 : "http://".data = ['h', 't', 't', 'p', ':', '/', '/'] := rfl
  have h3 : "https://".data = ['h', 't', 't', 'p', 's', ':', '/', '/'] := rfl
  obtain ⟨cs⟩ := s
  simp only [startsWith, h1, h2, h3] at h ⊢
  cases cs with
  | nil => rfl
  | cons c cs =>
    have hc : c = 'h' := by
      rcases h with h | h <;>
        · simp only [List.isPrefixOf, Bool.and_eq_true, beq_iff_eq] at h
          exact h.1.symm
    subst hc
    simp [List.isPrefixOf]

/-- C9 as stated is false: a request `GET /?url=` has a `url` parameter, yet it
gets the 400 `Missing "url" parameter` response and no fetch is issued. -/
theorem missing_url_counterexample :
    (plainRequest "GET" "/" [("url", "")]).searchParams.get "url" = some "" ∧
    (handleProxy refusingWorld (plainRequest "GET" "/" [("url", "")])).calls = [] ∧
    (∃ response,
      (handleProxy refusingWorld (plainRequest "GET" "/" [("url", "")])).response = .ok response ∧
      response.status = 400 ∧ response.body = Body.text "Missing \"url\" parameter") :=
  ⟨rfl, rfl, _, rfl, rfl, rfl⟩

/-- C9 (amended): a request to the single proxy whose `url` parameter is
absent or empty gets status 400 with the body `Missing "url" parameter`, the
CORS headers, and no outbound fetch; a request whose `url` parameter is
present and not empty issues exactly one outbound fetch and its response is
not that 400 response. -/
theorem missing_url_amended (world : World) (request : Request) :
    ((request.searchParams.get "url" = none ∨ request.searchParams.get "url" = some "") →
      (handleProxy world request).calls = [] ∧
      ∃ response, (handleProxy world request).response = .ok response ∧
        response.status = 400 ∧ response.body = Body.text "Missing \"url\" parameter" ∧
        HasCors response.headers) ∧
    (∀ t, request.searchParams.get "url" = some t → t ≠ "" →
      (handleProxy world request).calls = [proxyCall request t] ∧
      ∀ response, (handleProxy world request).response = .ok response →
        response.body ≠ Body.text "Missing \"url\" parameter") := by
  constructor
  · intro h
    obtain ⟨response, hr, hs, -, hb, hh, hc⟩ :=
      get_response_headers (handleProxy_missing world request h)
    refine ⟨hc, response, hr, hs, hb, ?_⟩
    rw [hh]
    exact hasCors_plainTextHeaders
  · intro t h ht
    refine ⟨handleProxy_calls world request t h ht, ?_⟩
    intro response hr
    rw [handleProxy_forward world request t h ht] at hr
    cases hw : world.fetch 0 (proxyCall request t) with
    | fault message =>
      rw [hw] at hr
      simp only [caught_proxy] at hr
      injection hr with hr
      subst hr
      intro hb
      injection hb with hb
      exact proxyError_ne_missing message hb
    | response res =>
      rw [hw] at hr
      simp only at hr
      by_cases hs : 200 ≤ res.status ∧ res.status ≤ 599
      · rw [newResponse_ok _ _ _ _ hs.1 hs.2] at hr
        simp only [tryCatch] at hr
        injection hr with hr
        subst hr
        intro hb
        cases hb
      · obtain ⟨message, hm⟩ := newResponse_error (Body.stream res.text) res.status
          res.statusText (newHeaders res) hs
        rw [hm] at hr
        simp only [tryCatch, caught_proxy] at hr
        injection hr with hr
        subst hr
        intro hb
        injection hb with hb
        exact proxyError_ne_missing message hb


/-- C2: for a non-empty `url` value `t`, the one outbound fetch of the single
proxy targets `t` with one leading `/` removed, prefixed with `https://` unless
the remainder starts with `http://` or `https://`; that target starts with
`http://` or `https://` and not with `/`. -/
theorem proxy_target_sanitized (world : World) (request : Request) (t : String)
    (h : request.searchParams.get "url" = some t) (ht : t ≠ "") :
    (∃ call, (handleProxy world request).calls = [call] ∧
      call.url = JsVal.str (specTarget t)) ∧
    (startsWith (specTarget t) "http://" = true ∨
      startsWith (specTarget t) "https://" = true) ∧
    startsWith (specTarget t) "/" = false ∧
    finalTargetUrl "/github.com/x" = "https://github.com/x" ∧
    finalTargetUrl "github.com/x" = "https://github.com/x" ∧
    finalTargetUrl "http://example.com" = "http://example.com" := by
  have hs := finalTargetUrl_scheme t
  rw [finalTargetUrl_eq_specTarget] at hs
  refine ⟨⟨proxyCall request t, handleProxy_calls world request t h ht, ?_⟩, hs,
    no_leading_slash _ hs, by decide, by decide, by decide⟩
  simp [proxyCall, finalTargetUrl_eq_specTarget]

/-- C2 at a concrete input: `GET /?url=/github.com/x`. -/
theorem proxy_target_sanitized_witness :
    (plainRequest "GET" "/" [("url", "/github.com/x")]).searchParams.get "url"
        = some "/github.com/x" ∧
    (∃ call,
      (handleProxy refusingWorld (plainRequest "GET" "/" [("url", "/github.com/x")])).calls
        = [call] ∧
      call.url = JsVal.str (specTarget "/github.com/x")) :=
  ⟨rfl,
   (proxy_target_sanitized refusingWorld (plainRequest "GET" "/" [("url", "/github.com/x")])
      "/github.com/x" rfl (by decide)).1⟩

/-! ### The batch handler -/

/-- A response of the 500 path, for any message. -/
theorem caught_batch (message : String) :
    newResponse (Body.text ("Batch Error: " ++ message)) 500 "" (addCorsHeaders Headers.empty) =
      .ok { status := 500, statusText := "", headers := plainTextHeaders,
            body := Body.text ("Batch Error: " ++ message) } := by
  simp [newResponse, responseHeaders_text, plainTextHeaders]

theorem handleBatch_json_error (world : World) (request : Request) (message : String)
    (h : request.json = .error message) :
    handleBatch world request =
      { response := .ok { status := 500, statusText := "",
                          headers := plainTextHeaders,
                          body := Body.text ("Batch Error: " ++ message) },
        calls := [] } := by
  simp [handleBatch, h, newResponse, responseHeaders_text, plainTextHeaders]

theorem handleBatch_destructure_error (world : World) (request : Request) (body : JsVal)
    (message : String) (h : request.json = .ok body)
    (hd : body.destructureUrls = .error message) :
    handleBatch world request =
      { response := .ok { status := 500, statusText := "",
                          headers := plainTextHeaders,
                          body := Body.text ("Batch Error: " ++ message) },
        calls := [] } := by
  simp [handleBatch, h, hd, newResponse, responseHeaders_text, plainTextHeaders]

theorem handleBatch_invalid (world : World) (request : Request) (body urls : JsVal)
    (h : request.json = .ok body) (hd : body.destructureUrls = .ok urls)
    (hu : urls.isArray = false) :
    handleBatch world request =
      { response := .ok { status := 400, statusText := "",
                          headers := plainTextHeaders,
                          body := Body.text "Invalid Request: \"urls\" must be an array" },
        calls := [] } := by
  simp [handleBatch, h, hd, hu, newResponse, tryCatch, responseHeaders_text, plainTextHeaders]

theorem responseHeaders_json (document : Json) :
    responseHeaders (Body.json document).contentType [("Content-Type", "application/json")]
      = Headers.copy [("Content-Type", "application/json")] := by
  have hh : (Headers.copy [("Content-Type", "application/json")]).has "Content-Type" = true := by
    rw [Headers.has_copy]
    decide
  show responseHeaders (some "text/plain;charset=UTF-8") _ = _
  unfold responseHeaders
  simp only [hh, if_true]

theorem handleBatch_array (world : World) (request : Request) (body : JsVal)
    (items : List JsVal) (h : request.json = .ok body)
    (hd : body.destructureUrls = .ok (JsVal.arr items)) :
    handleBatch world request =
      { response := .ok { status := 200, statusText := "",
                          headers := addCorsHeaders
                            (Headers.copy [("Content-Type", "application/json")]),
                          body := Body.json
                            (batchDocument (items.mapIdx (fetchOne world request))) },
        calls := items.map (batchCall request) } := by
  simp [handleBatch, h, hd, newResponse, tryCatch, JsVal.truthy, JsVal.isArray, JsVal.items,
    responseHeaders_json]

theorem isArray_cases (urls : JsVal) :
    urls.isArray = false ∨ ∃ items, urls = JsVal.arr items := by
  cases urls <;> simp [JsVal.isArray]

theorem handleBatch_cors (world : World) (request : Request) :
    ∃ response, (handleBatch world request).response = .ok response ∧
      HasCors response.headers := by
  cases hj : request.json with
  | error message =>
    exact cors_of_handled (handleBatch_json_error world request message hj)
      (hasCors_plainTextHeaders)
  | ok body =>
    cases hd : body.destructureUrls with
    | error message =>
      exact cors_of_handled (handleBatch_destructure_error world request body message hj hd)
        (hasCors_plainTextHeaders)
    | ok urls =>
      rcases isArray_cases urls with hu | ⟨items, rfl⟩
      · exact cors_of_handled (handleBatch_invalid world request body urls hj hd hu)
          (hasCors_plainTextHeaders)
      · exact cors_of_handled (handleBatch_array world request body items hj hd)
          (hasCors_addCorsHeaders _)

theorem hasCors_newHeaders (res : UpstreamResponse) : HasCors (newHeaders res) := by
  intro p hp
  have hc := hasCors_addCorsHeaders res.headers.copy p hp
  simp only [corsHeaders, List.mem_cons, List.mem_singleton, List.not_mem_nil, or_false] at hp
  unfold newHeaders
  rw [Headers.get_delete, Headers.get_delete]
  rcases hp with rfl | rfl | rfl | rfl | rfl <;>
    rw [if_neg (by decide), if_neg (by decide)] <;> exact hc

theorem handleProxy_fault (world : World) (request : Request) (t message : String)
    (h : request.searchParams.get "url" = some t) (ht : t ≠ "")
    (hw : world.fetch 0 (proxyCall request t) = .fault message) :
    handleProxy world request =
      { response := .ok { status := 502, statusText := "",
                          headers := plainTextHeaders,
                          body := Body.text ("Proxy Error: " ++ message) },
        calls := [proxyCall request t] } := by
  rw [handleProxy_forward world request t h ht, hw]
  simp only [caught_proxy]

theorem handleProxy_passthrough (world : World) (request : Request) (t : String)
    (res : UpstreamResponse)
    (h : request.searchParams.get "url" = some t) (ht : t ≠ "")
    (hw : world.fetch 0 (proxyCall request t) = .response res)
    (h1 : 200 ≤ res.status) (h2 : res.status ≤ 599) :
    handleProxy world request =
      { response := .ok { status := res.status, statusText := res.statusText,
                          headers := (newHeaders res).copy,
                          body := Body.stream res.text },
        calls := [proxyCall request t] } := by
  rw [handleProxy_forward world request t h ht, hw]
  simp only [newResponse_ok _ _ _ _ h1 h2, tryCatch, responseHeaders_stream]

theorem handleProxy_unconstructible (world : World) (request : Request) (t : String)
    (res : UpstreamResponse)
    (h : request.searchParams.get "url" = some t) (ht : t ≠ "")
    (hw : world.fetch 0 (proxyCall request t) = .response res)
    (hs : ¬ (200 ≤ res.status ∧ res.status ≤ 599)) :
    ∃ message, handleProxy world request =
      { response := .ok { status := 502, statusText := "",
                          headers := plainTextHeaders,
                          body := Body.text ("Proxy Error: " ++ message) },
        calls := [proxyCall request t] } := by
  obtain ⟨message, hm⟩ := newResponse_error (Body.stream res.text) res.status
    res.statusText (newHeaders res) hs
  refine ⟨message, ?_⟩
  rw [handleProxy_forward world request t h ht, hw]
  simp only [hm, tryCatch, caught_proxy]

theorem handleProxy_cors (world : World) (request : Request) :
    ∃ response, (handleProxy world request).response = .ok response ∧
      HasCors response.headers := by
  cases hq : request.searchParams.get "url" with
  | none =>
    exact cors_of_handled (handleProxy_missing world request (Or.inl hq))
      (hasCors_plainTextHeaders)
  | some t =>
    by_cases ht : t = ""
    · subst ht
      exact cors_of_handled (handleProxy_missing world request (Or.inr hq))
        (hasCors_plainTextHeaders)
    · cases hw : world.fetch 0 (proxyCall request t) with
      | fault message =>
        exact cors_of_handled (handleProxy_fault world request t message hq ht hw)
          (hasCors_plainTextHeaders)
      | response res =>
        by_cases hs : 200 ≤ res.status ∧ res.status ≤ 599
        · exact cors_of_handled (handleProxy_passthrough world request t res hq ht hw hs.1 hs.2)
            (hasCors_copy (hasCors_newHeaders res))
        · obtain ⟨message, hm⟩ := handleProxy_unconstructible world request t res hq ht hw hs
          exact cors_of_handled hm (hasCors_plainTextHeaders)

theorem handleOptions_eq (request : Request) :
    handleOptions request =
      { response := .ok { status := 204, statusText := "",
                          headers := (addCorsHeaders Headers.empty).copy,
                          body := Body.null },
        calls := [] } := by
  simp [handleOptions, newResponse, responseHeaders_null]

/-- C3: whatever the request and whatever the network answers, the worker
returns a response (no fault escapes) and that response carries the five CORS
headers with their fixed values. -/
theorem cors_on_every_response (world : World) (request : Request) :
    ∃ response, (fetch world request).response = .ok response ∧
      response.headers.get "Access-Control-Allow-Origin" = some "*" ∧
      response.headers.get "Access-Control-Allow-Methods" = some "GET, HEAD, POST, OPTIONS" ∧
      response.headers.get "Access-Control-Allow-Headers" = some
        "Content-Type, Authorization, X-Requested-With, Range, Git-Protocol, User-Agent, If-None-Match, If-Modified-Since, Cache-Control, Pragma" ∧
      response.headers.get "Access-Control-Expose-Headers" = some "*" ∧
      response.headers.get "Access-Control-Max-Age" = some "86400" := by
  have key : ∃ response, (fetch world request).response = .ok response ∧
      HasCors response.headers := by
    unfold fetch
    split
    · exact cors_of_handled (handleOptions_eq request)
        (hasCors_copy (hasCors_addCorsHeaders _))
    · split
      · exact handleBatch_cors world request
      · exact handleProxy_cors world request
  obtain ⟨response, hr, hc⟩ := key
  refine ⟨response, hr, ?_, ?_, ?_, ?_, ?_⟩
  · exact hc ("Access-Control-Allow-Origin", "*") (by simp [corsHeaders])
  · exact hc ("Access-Control-Allow-Methods", "GET, HEAD, POST, OPTIONS") (by simp [corsHeaders])
  · exact hc ("Access-Control-Allow-Headers", allowHeaders) (by simp [corsHeaders])
  · exact hc ("Access-Control-Expose-Headers", "*") (by simp [corsHeaders])
  · exact hc ("Access-Control-Max-Age", "86400") (by simp [corsHeaders])


/-! ### Headers of the proxied response -/

theorem isCorsName_cases (m : String) (hc : isCorsName m = true) :
    lowerName m = lowerName "Access-Control-Allow-Origin" ∨
    lowerName m = lowerName "Access-Control-Allow-Methods" ∨
    lowerName m = lowerName "Access-Control-Allow-Headers" ∨
    lowerName m = lowerName "Access-Control-Expose-Headers" ∨
    lowerName m = lowerName "Access-Control-Max-Age" := by
  simpa [isCorsName, corsHeaders, Headers.named_eq] using hc

theorem not_frame_of_cors (m : String) (hc : isCorsName m = true) : isFrameHeader m = false := by
  have hx : ∀ a b : String, lowerName m = a → a ≠ b → ¬ lowerName m = b := by
    intro a b h1 h2 h3
    exact h2 (h1.symm.trans h3)
  simp only [isFrameHeader, Headers.named_eq, Bool.or_eq_false_iff, decide_eq_false_iff_not]
  rcases isCorsName_cases m hc with h | h | h | h | h <;>
    exact ⟨hx _ _ h (by decide), hx _ _ h (by decide)⟩

theorem get_addCorsHeaders_cors (h k : Headers) (m : String) (hc : isCorsName m = true) :
    (addCorsHeaders h).get m = (addCorsHeaders k).get m := by
  rw [get_addCorsHeaders, get_addCorsHeaders]
  rcases isCorsName_cases m hc with e | e | e | e | e <;> simp only [e, if_true]

theorem get_strip_frame (h : Headers) (m : String) :
    ((h.delete "X-Frame-Options").delete "Content-Security-Policy").get m =
      if isFrameHeader m then none else h.get m := by
  rw [Headers.get_delete, Headers.get_delete]
  simp only [isFrameHeader, Headers.named_eq, Bool.or_eq_true, decide_eq_true_eq]
  by_cases h1 : lowerName m = lowerName "Content-Security-Policy"
  · simp [h1]
  · by_cases h2 : lowerName m = lowerName "X-Frame-Options"
    · simp [h1, h2]
    · simp [h1, h2]


theorem get_newHeaders (res : UpstreamResponse) (m : String) :
    (newHeaders res).get m = (specProxyHeaders res.headers).get m := by
  unfold newHeaders specProxyHeaders
  rw [get_strip_frame]
  cases hc : isCorsName m with
  | true =>
    rw [not_frame_of_cors m hc, if_neg Bool.false_ne_true]
    exact get_addCorsHeaders_cors _ _ m hc
  | false =>
    rw [get_addCorsHeaders_other _ m hc, get_addCorsHeaders_other _ m hc, get_strip_frame]

theorem get_newHeaders_frame (res : UpstreamResponse) (m : String)
    (hf : isFrameHeader m = true) : (newHeaders res).get m = none := by
  unfold newHeaders
  rw [get_strip_frame, hf, if_pos rfl]

theorem get_newHeaders_other (res : UpstreamResponse) (m : String)
    (hc : isCorsName m = false) (hf : isFrameHeader m = false) :
    (newHeaders res).get m = res.headers.get m := by
  unfold newHeaders
  rw [get_strip_frame, hf, if_neg Bool.false_ne_true, get_addCorsHeaders_other _ m hc,
    Headers.get_copy]

/-- C4 as stated is false: an upstream response with status 999 is not
mirrored.  Constructing the outgoing response throws, the catch answers 502,
and the upstream `Server` header is gone. -/
theorem upstream_status_counterexample :
    (constantWorld deniedResponse).fetch 0
        (proxyCall (plainRequest "GET" "/" [("url", "https://example.com")])
          "https://example.com") = .response deniedResponse ∧
    deniedResponse.status = 999 ∧
    deniedResponse.headers.get "Server" = some "origin" ∧
    ∃ response,
      (handleProxy (constantWorld deniedResponse)
        (plainRequest "GET" "/" [("url", "https://example.com")])).response = .ok response ∧
      response.status = 502 ∧ response.status ≠ deniedResponse.status ∧
      response.headers.get "Server" = none := by
  refine ⟨rfl, rfl, by decide, ?_⟩
  obtain ⟨message, hm⟩ := handleProxy_unconstructible (constantWorld deniedResponse)
    (plainRequest "GET" "/" [("url", "https://example.com")]) "https://example.com"
    deniedResponse rfl (by decide) rfl (by decide)
  obtain ⟨response, hr, hs, -, -, hh, -⟩ := get_response_headers hm
  refine ⟨response, hr, hs, ?_, ?_⟩
  · rw [hs]
    decide
  · rw [hh]
    exact get_plainTextHeaders_other "Server" (by decide) (by decide)

/-- C4 (amended): for every upstream response whose status is in the range 200
to 599, the outgoing response has the upstream status, status text and body;
its headers read as the spec's copy, strip, inject: `X-Frame-Options` and
`Content-Security-Policy` are absent under any letter case, the five CORS
headers hold their fixed values, and every other header reads as upstream.
An upstream status outside that range is not mirrored: the answer is status
502 with the body `Proxy Error: <message>`, the five CORS headers, the
`Content-Type` of a plain-text body, and no other header. -/
theorem proxy_response_mirrors_upstream (world : World) (request : Request) (t : String)
    (res : UpstreamResponse)
    (h : request.searchParams.get "url" = some t) (ht : t ≠ "")
    (hw : world.fetch 0 (proxyCall request t) = .response res) :
    (200 ≤ res.status ∧ res.status ≤ 599 →
      ∃ response, (handleProxy world request).response = .ok response ∧
        response.status = res.status ∧ response.statusText = res.statusText ∧
        response.body = Body.stream res.text ∧
        (∀ m, response.headers.get m = (specProxyHeaders res.headers).get m) ∧
        (∀ m, isFrameHeader m = true →
          response.headers.get m = none ∧ response.headers.has m = false) ∧
        HasCors response.headers ∧
        (∀ m, isCorsName m = false → isFrameHeader m = false →
          response.headers.get m = res.headers.get m)) ∧
    (¬ (200 ≤ res.status ∧ res.status ≤ 599) →
      ∃ response message, (handleProxy world request).response = .ok response ∧
        response.status = 502 ∧
        response.body = Body.text ("Proxy Error: " ++ message) ∧
        HasCors response.headers ∧
        response.headers.get "Content-Type" = some "text/plain;charset=UTF-8" ∧
        (∀ m, isCorsName m = false → lowerName m ≠ lowerName "Content-Type" →
          response.headers.get m = none)) := by
  constructor
  · intro hrange
    obtain ⟨response, hr, hs, hst, hb, hh, -⟩ :=
      get_response_headers
        (handleProxy_passthrough world request t res h ht hw hrange.1 hrange.2)
    refine ⟨response, hr, hs, hst, hb, ?_, ?_, ?_, ?_⟩
    · intro m
      rw [hh, Headers.get_copy, get_newHeaders]
    · intro m hf
      have hg : response.headers.get m = none := by
        rw [hh, Headers.get_copy, get_newHeaders_frame res m hf]
      refine ⟨hg, ?_⟩
      have hi := Headers.has_iff_get response.headers m
      rw [hg] at hi
      cases hx : response.headers.has m with
      | false => rfl
      | true => simp [hx] at hi
    · rw [hh]
      exact hasCors_copy (hasCors_newHeaders res)
    · intro m hc hf
      rw [hh, Headers.get_copy, get_newHeaders_other res m hc hf]
  · intro hrange
    obtain ⟨message, hm⟩ := handleProxy_unconstructible world request t res h ht hw hrange
    obtain ⟨response, hr, hs, -, hb, hh, -⟩ := get_response_headers hm
    refine ⟨response, message, hr, hs, hb, ?_, ?_, ?_⟩
    · rw [hh]
      exact hasCors_plainTextHeaders
    · rw [hh]
      exact get_plainTextHeaders_contentType
    · intro m hc hne
      rw [hh]
      exact get_plainTextHeaders_other m hc hne

/-- C4 (amended) at a concrete input: a 404 upstream response with framing
headers and a conflicting CORS header is mirrored. -/
theorem proxy_response_mirrors_upstream_witness :
    (plainRequest "GET" "/" [("url", "https://example.com")]).searchParams.get "url"
        = some "https://example.com" ∧
    (constantWorld framedResponse).fetch 0
        (proxyCall (plainRequest "GET" "/" [("url", "https://example.com")])
          "https://example.com") = .response framedResponse ∧
    200 ≤ framedResponse.status ∧ framedResponse.status ≤ 599 ∧
    ∃ response,
      (handleProxy (constantWorld framedResponse)
        (plainRequest "GET" "/" [("url", "https://example.com")])).response = .ok response ∧
      response.status = framedResponse.status ∧
      response.statusText = framedResponse.statusText ∧
      response.body = Body.stream framedResponse.text ∧
      (∀ m, response.headers.get m = (specProxyHeaders framedResponse.headers).get m) ∧
      (∀ m, isFrameHeader m = true →
        response.headers.get m = none ∧ response.headers.has m = false) ∧
      HasCors response.headers ∧
      (∀ m, isCorsName m = false → isFrameHeader m = false →
        response.headers.get m = framedResponse.headers.get m) :=
  ⟨rfl, rfl, by decide, by decide,
   (proxy_response_mirrors_upstream (constantWorld framedResponse)
     (plainRequest "GET" "/" [("url", "https://example.com")]) "https://example.com"
     framedResponse rfl (by decide) rfl).1 ⟨by decide, by decide⟩⟩

/-! ### Headers forwarded to the target -/

theorem isStripped_false_iff (m : String) :
    isStripped m = false ↔
      ¬ lowerName m = lowerName "Host" ∧ ¬ lowerName m = lowerName "Referer" ∧
      ¬ lowerName m = lowerName "Origin" ∧ ¬ lowerName m = lowerName "cf-connecting-ip" ∧
      ¬ lowerName m = lowerName "x-forwarded-for" ∧ ¬ lowerName m = lowerName "x-real-ip" := by
  simp only [isStripped, strippedRequestHeaders, List.any_cons, List.any_nil, Headers.named_eq,
    Bool.or_false, Bool.or_eq_false_iff, decide_eq_false_iff_not]

/-- The inbound headers after the six deletions of source lines 112-117. -/
theorem get_cleaned (h : Headers) (m : String) :
    ((((((h.copy.delete "Host").delete "Referer").delete "Origin").delete
      "cf-connecting-ip").delete "x-forwarded-for").delete "x-real-ip").get m =
      if isStripped m then none else h.get m := by
  simp only [Headers.get_delete, Headers.get_copy]
  cases hs : isStripped m with
  | false =>
    obtain ⟨h1, h2, h3, h4, h5, h6⟩ := (isStripped_false_iff m).1 hs
    rw [if_neg h6, if_neg h5, if_neg h4, if_neg h3, if_neg h2, if_neg h1,
      if_neg Bool.false_ne_true]
  | true =>
    rw [if_pos rfl]
    by_contra hne
    have : isStripped m = false := by
      rw [isStripped_false_iff]
      refine ⟨?_, ?_, ?_, ?_, ?_, ?_⟩ <;> intro e <;> simp [e] at hne
    rw [this] at hs
    exact Bool.false_ne_true hs

theorem has_congr_get {h k : Headers} {m n : String} (e : h.get m = k.get n) :
    h.has m = k.has n := by
  have h1 := Headers.has_iff_get h m
  have h2 := Headers.has_iff_get k n
  rw [e] at h1
  cases hh : h.has m <;> cases hk : k.has n <;> simp_all

theorem get_originalHeaders (request : Request) (m : String) :
    (originalHeaders request).get m =
      if isStripped m then none
      else if lowerName m = lowerName "User-Agent" then
        (if request.headers.has "User-Agent" then request.headers.get "User-Agent"
         else some "Sift-Proxy/1.0")
      else request.headers.get m := by
  have hua : isStripped "User-Agent" = false := by decide
  have hget := get_cleaned request.headers "User-Agent"
  rw [hua, if_neg Bool.false_ne_true] at hget
  have hhas := has_congr_get hget
  unfold originalHeaders
  simp only []
  rw [hhas]
  cases hu : request.headers.has "User-Agent" with
  | true =>
    simp only [Bool.not_true, Bool.false_eq_true, if_false, if_true]
    rw [get_cleaned]
    by_cases hm : lowerName m = lowerName "User-Agent"
    · have hg : request.headers.get m = request.headers.get "User-Agent" := by
        simp [Headers.get, ← Headers.values_lower request.headers m, hm,
          Headers.values_lower]
      have hsm : isStripped m = false := by
        rw [isStripped_false_iff]
        rw [hm]
        decide
      rw [hsm, if_neg Bool.false_ne_true, if_neg Bool.false_ne_true, if_pos hm, hg]
    · simp only [hm, if_false]
  | false =>
    simp only [Bool.not_false, if_true]
    rw [Headers.get_set, get_cleaned]
    by_cases hm : lowerName m = lowerName "User-Agent"
    · have hsm : isStripped m = false := by
        rw [isStripped_false_iff]
        rw [hm]
        decide
      rw [hsm, if_pos hm, if_neg Bool.false_ne_true, if_pos hm, if_neg Bool.false_ne_true]
    · rw [if_neg hm, if_neg hm]

theorem originalHeaders_frame (request : Request) :
    (∀ m, isStripped m = true → (originalHeaders request).get m = none) ∧
    (request.headers.has "User-Agent" = false →
      (originalHeaders request).get "User-Agent" = some "Sift-Proxy/1.0") ∧
    (request.headers.has "User-Agent" = true →
      (originalHeaders request).get "User-Agent" = request.headers.get "User-Agent") ∧
    (∀ m, isStripped m = false → lowerName m ≠ lowerName "User-Agent" →
      (originalHeaders request).get m = request.headers.get m) := by
  refine ⟨?_, ?_, ?_, ?_⟩
  · intro m hs
    rw [get_originalHeaders, hs, if_pos rfl]
  · intro hu
    rw [get_originalHeaders, if_neg (by decide), if_pos rfl, hu, if_neg Bool.false_ne_true]
  · intro hu
    rw [get_originalHeaders, if_neg (by decide), if_pos rfl, hu, if_pos rfl]
  · intro m hs hm
    rw [get_originalHeaders, hs, if_neg Bool.false_ne_true, if_neg hm]

/-- C5: every outbound call of the single proxy carries the inbound headers
with `Host`, `Referer`, `Origin`, `cf-connecting-ip`, `x-forwarded-for` and
`x-real-ip` removed, `User-Agent` defaulted to `Sift-Proxy/1.0` exactly when the
inbound request has none, and every other header (`Authorization`,
`Git-Protocol`, `Content-Type`, ...) with its inbound value; a request with a
non-empty `url` parameter issues exactly one such call. -/
theorem proxy_forwarded_headers (world : World) (request : Request) :
    (∀ call ∈ (handleProxy world request).calls,
      call.headers = originalHeaders request ∧
      (∀ m, isStripped m = true → call.headers.get m = none) ∧
      (request.headers.has "User-Agent" = false →
        call.headers.get "User-Agent" = some "Sift-Proxy/1.0") ∧
      (request.headers.has "User-Agent" = true →
        call.headers.get "User-Agent" = request.headers.get "User-Agent") ∧
      (∀ m, isStripped m = false → lowerName m ≠ lowerName "User-Agent" →
        call.headers.get m = request.headers.get m) ∧
      call.headers.get "Authorization" = request.headers.get "Authorization" ∧
      call.headers.get "Git-Protocol" = request.headers.get "Git-Protocol" ∧
      call.headers.get "Content-Type" = request.headers.get "Content-Type") ∧
    (∀ t, request.searchParams.get "url" = some t → t ≠ "" →
      (handleProxy world request).calls = [proxyCall request t]) := by
  refine ⟨?_, fun t h ht => handleProxy_calls world request t h ht⟩
  intro call hc
  have hmem : ∃ t, call = proxyCall request t := by
    cases hq : request.searchParams.get "url" with
    | none =>
      rw [handleProxy_missing world request (Or.inl hq)] at hc
      cases hc
    | some t =>
      by_cases ht : t = ""
      · subst ht
        rw [handleProxy_missing world request (Or.inr hq)] at hc
        cases hc
      · rw [handleProxy_calls world request t hq ht] at hc
        exact ⟨t, List.mem_singleton.1 hc⟩
  obtain ⟨t, rfl⟩ := hmem
  have hcall : (proxyCall request t).headers = originalHeaders request := rfl
  obtain ⟨hs, hu0, hu1, hother⟩ := originalHeaders_frame request
  refine ⟨hcall, ?_⟩
  rw [hcall]
  exact ⟨hs, hu0, hu1, hother, hother "Authorization" (by decide) (by decide),
    hother "Git-Protocol" (by decide) (by decide),
    hother "Content-Type" (by decide) (by decide)⟩

/-- C5 at a concrete input: a git client's `POST` through the proxy issues one
call, without `Host`, `Origin` and `X-Forwarded-For`, with the default
`User-Agent` and with `Authorization` and `Git-Protocol` as sent. -/
theorem proxy_forwarded_headers_witness :
    (handleProxy refusingWorld gitRequest).calls
      = [proxyCall gitRequest "github.com/o/r.git/git-upload-pack"] ∧
    (proxyCall gitRequest "github.com/o/r.git/git-upload-pack").headers.get "host" = none ∧
    (proxyCall gitRequest "github.com/o/r.git/git-upload-pack").headers.get "Origin" = none ∧
    (proxyCall gitRequest "github.com/o/r.git/git-upload-pack").headers.get "x-forwarded-for"
      = none ∧
    (proxyCall gitRequest "github.com/o/r.git/git-upload-pack").headers.get "User-Agent"
      = some "Sift-Proxy/1.0" ∧
    (proxyCall gitRequest "github.com/o/r.git/git-upload-pack").headers.get "Authorization"
      = some "Basic dTpw" ∧
    (proxyCall gitRequest "github.com/o/r.git/git-upload-pack").headers.get "Git-Protocol"
      = some "version=2" := by
  have hcalls := (proxy_forwarded_headers refusingWorld gitRequest).2
    "github.com/o/r.git/git-upload-pack" rfl (by decide)
  obtain ⟨-, hs, hu0, -, -, ha, hg, -⟩ :=
    (proxy_forwarded_headers refusingWorld gitRequest).1
      (proxyCall gitRequest "github.com/o/r.git/git-upload-pack")
      (by rw [hcalls]; exact List.mem_singleton.2 rfl)
  refine ⟨hcalls, hs "host" (by decide), hs "Origin" (by decide),
    hs "x-forwarded-for" (by decide), hu0 (by decide), ?_, ?_⟩
  · rw [ha]
    decide
  · rw [hg]
    decide

/-! ### Batch results -/

theorem fetchOne_url (world : World) (request : Request) (index : Nat) (url : JsVal) :
    (fetchOne world request index url).url = url := by
  unfold fetchOne
  split
  · rfl
  · split
    · rfl
    · split <;> rfl

theorem destructure_obj (fields : List (String × JsVal)) (urls : JsVal)
    (hu : fields.lookup "urls" = some urls) :
    (JsVal.obj fields).destructureUrls = .ok urls := by
  simp [JsVal.destructureUrls, hu]

theorem handleBatch_results (world : World) (request : Request)
    (fields : List (String × JsVal)) (items : List JsVal)
    (h : request.json = .ok (JsVal.obj fields))
    (hu : fields.lookup "urls" = some (JsVal.arr items)) :
    ∃ response, (handleBatch world request).response = .ok response ∧
      response.status = 200 ∧
      response.body = Body.json (batchDocument (items.mapIdx (fetchOne world request))) ∧
      (handleBatch world request).calls = items.map (batchCall request) := by
  obtain ⟨response, hr, hs, -, hb, -, hc⟩ :=
    get_response_headers
      (handleBatch_array world request _ items h (destructure_obj fields _ hu))
  exact ⟨response, hr, hs, hb, hc⟩

theorem resultJson_url (r : BatchResult) : (resultJson r).member "url" = r.url.stringify := by
  unfold resultJson Json.member
  cases r.url.stringify <;> cases r.error <;> cases r.content <;> cases r.headers <;>
    simp [List.lookup]

theorem resultJson_error (r : BatchResult) :
    (resultJson r).member "error" = r.error.map Json.str := by
  unfold resultJson Json.member
  cases r.url.stringify <;> cases r.error <;> cases r.content <;> cases r.headers <;>
    simp [List.lookup]

theorem resultJson_content (r : BatchResult) :
    (resultJson r).member "content" = r.content.map Json.str := by
  unfold resultJson Json.member
  cases r.url.stringify <;> cases r.error <;> cases r.content <;> cases r.headers <;>
    simp [List.lookup]

theorem resultJson_headers (r : BatchResult) :
    ((resultJson r).member "headers").isSome = r.headers.isSome := by
  unfold resultJson Json.member
  cases r.url.stringify <;> cases r.error <;> cases r.content <;> cases r.headers <;>
    simp [List.lookup]

mutual
theorem stringify_parse : ∀ v : JsVal, v.writable = true →
    v.stringify.map Json.parse = some v
  | .undefined, h => by simp [JsVal.writable] at h
  | .null, _ => by simp [JsVal.stringify, Json.parse]
  | .bool b, _ => by simp [JsVal.stringify, Json.parse]
  | .num (JsNumber.finite m e), _ => by simp [JsVal.stringify, Json.parse]
  | .num JsNumber.negZero, h => by simp [JsVal.writable] at h
  | .num JsNumber.posInfinity, h => by simp [JsVal.writable] at h
  | .num JsNumber.negInfinity, h => by simp [JsVal.writable] at h
  | .str s, _ => by simp [JsVal.stringify, Json.parse]
  | .arr items, h => by
    have := stringifyItems_parse items (by simpa [JsVal.writable] using h)
    simp [JsVal.stringify, Json.parse, this]
  | .obj fields, h => by
    have := stringifyFields_parse fields (by simpa [JsVal.writable] using h)
    simp [JsVal.stringify, Json.parse, this]
theorem stringifyItems_parse : ∀ vs : List JsVal, writableItems vs = true →
    parseItems (stringifyItems vs) = vs
  | [], _ => by simp [stringifyItems, parseItems]
  | v :: vs, h => by
    simp only [writableItems, Bool.and_eq_true] at h
    have h1 := stringify_parse v h.1
    have h2 := stringifyItems_parse vs h.2
    cases hv : v.stringify with
    | none => simp [hv] at h1
    | some j =>
      rw [hv] at h1
      simp at h1
      simp [stringifyItems, parseItems, hv, h1, h2]
theorem stringifyFields_parse : ∀ fs : List (String × JsVal), writableFields fs = true →
    parseFields (stringifyFields fs) = fs
  | [], _ => by simp [stringifyFields, parseFields]
  | (k, v) :: rest, h => by
    simp only [writableFields, Bool.and_eq_true] at h
    have h1 := stringify_parse v h.1
    have h2 := stringifyFields_parse rest h.2
    cases hv : v.stringify with
    | none => simp [hv] at h1
    | some j =>
      rw [hv] at h1
      simp at h1
      simp [stringifyFields, parseFields, hv, h1, h2]
end

/-- The `url` member of the i-th written result is the serialisation of the
i-th element of `urls`. -/
theorem written_url (world : World) (request : Request) (items : List JsVal) (i : Nat) :
    ((((items.mapIdx (fetchOne world request)).map resultJson)[i]?).map
        (fun r => r.member "url")) = items[i]?.map JsVal.stringify := by
  rw [List.getElem?_map, List.getElem?_mapIdx]
  cases items[i]? with
  | none => rfl
  | some url => simp [resultJson_url, fetchOne_url]

/-- C6 as stated is false: for the body with `urls` equal to `[1e400]` the
element is read as `Infinity`, and `JSON.stringify` writes the `url` of the
result as `null`, which is not `urls[0]`. -/
theorem batch_url_counterexample :
    overflowUrls[0]? = some (JsVal.num JsNumber.posInfinity) ∧
    (∃ response results,
      (handleBatch refusingWorld
        (batchRequest (.ok (JsVal.obj [("urls", JsVal.arr overflowUrls)])))).response
          = .ok response ∧
      response.body = Body.json (Json.obj [("results", Json.arr results)]) ∧
      (results[0]?).map (fun r => (r.member "url").map Json.parse)
        = some (some JsVal.null)) ∧
    JsVal.null ≠ JsVal.num JsNumber.posInfinity := by
  refine ⟨rfl, ?_, by intro e; cases e⟩
  obtain ⟨response, hr, -, hb, -⟩ :=
    handleBatch_results refusingWorld
      (batchRequest (.ok (JsVal.obj [("urls", JsVal.arr overflowUrls)])))
      [("urls", JsVal.arr overflowUrls)] overflowUrls rfl rfl
  refine ⟨response, _, hr, hb, ?_⟩
  have hw := written_url refusingWorld
    (batchRequest (.ok (JsVal.obj [("urls", JsVal.arr overflowUrls)]))) overflowUrls 0
  cases hx : ((overflowUrls.mapIdx (fetchOne refusingWorld
      (batchRequest (.ok (JsVal.obj [("urls", JsVal.arr overflowUrls)]))))).map
        resultJson)[0]? with
  | none =>
    rw [hx] at hw
    cases hw
  | some r =>
    rw [hx] at hw
    have hm : r.member "url" = some Json.null := by
      have := Option.some.inj hw
      exact this
    simp [hm, Json.parse]

/-- C6 (amended): for a batch body that is an object with an array `urls`,
whatever the network answers to each call, the response is the JSON text of
an object whose `results` array is as long as `urls`, and the `url` of its
i-th element is the JSON serialisation of `urls[i]`: it reads back as `urls[i]`
for every element JSON can write as it is, in particular for every string,
while `Infinity` (from a literal such as `1e400`) is written `null`.  One
fetch is issued per element, and an empty `urls` gives an empty `results`. -/
theorem batch_results_aligned (world : World) (request : Request)
    (fields : List (String × JsVal)) (items : List JsVal)
    (h : request.json = .ok (JsVal.obj fields))
    (hu : fields.lookup "urls" = some (JsVal.arr items)) :
    ∃ response results, (handleBatch world request).response = .ok response ∧
      response.body = Body.json (Json.obj [("results", Json.arr results)]) ∧
      results.length = items.length ∧
      (∀ i : Nat, (results[i]?).map (fun r => r.member "url")
        = items[i]?.map JsVal.stringify) ∧
      (∀ (i : Nat) (v : JsVal), items[i]? = some v → v.writable = true →
        (results[i]?).map (fun r => (r.member "url").map Json.parse) = some (some v)) ∧
      (∀ (i : Nat) (url : String), items[i]? = some (JsVal.str url) →
        (results[i]?).map (fun r => r.member "url") = some (some (Json.str url))) ∧
      (∀ i : Nat, items[i]? = some (JsVal.num JsNumber.posInfinity) →
        (results[i]?).map (fun r => r.member "url") = some (some Json.null)) ∧
      (items = [] → results = []) ∧
      ((handleBatch world request).calls.map FetchCall.url = items) := by
  obtain ⟨response, hr, -, hb, hc⟩ := handleBatch_results world request fields items h hu
  have hw := written_url world request items
  refine ⟨response, (items.mapIdx (fetchOne world request)).map resultJson, hr, hb, ?_, hw,
    ?_, ?_, ?_, ?_, ?_⟩
  · rw [List.length_map, List.length_mapIdx]
  · intro i v hi hv
    have hwi := hw i
    rw [hi] at hwi
    cases hx : ((items.mapIdx (fetchOne world request)).map resultJson)[i]? with
    | none =>
      rw [hx] at hwi
      cases hwi
    | some r =>
      rw [hx] at hwi
      have hm : r.member "url" = v.stringify := Option.some.inj hwi
      show some ((r.member "url").map Json.parse) = some (some v)
      rw [hm, stringify_parse v hv]
  · intro i url hi
    rw [hw i, hi]
    rfl
  · intro i hi
    rw [hw i, hi]
    rfl
  · intro he
    subst he
    rfl
  · rw [hc, List.map_map]
    have : (FetchCall.url ∘ batchCall request) = id := by
      funext u
      rfl
    rw [this, List.map_id]

/-- C6 (amended) at a concrete input: the three URLs of the isolation
scenario, all strings. -/
theorem batch_results_aligned_witness :
    (batchRequest (.ok (JsVal.obj [("urls", JsVal.arr isolationUrls)]))).json
        = .ok (JsVal.obj [("urls", JsVal.arr isolationUrls)]) ∧
    List.lookup "urls" [("urls", JsVal.arr isolationUrls)] = some (JsVal.arr isolationUrls) ∧
    ∃ response results,
      (handleBatch isolationWorld
        (batchRequest (.ok (JsVal.obj [("urls", JsVal.arr isolationUrls)])))).response
          = .ok response ∧
      response.body = Body.json (Json.obj [("results", Json.arr results)]) ∧
      results.length = isolationUrls.length ∧
      (results[1]?).map (fun r => r.member "url")
        = some (some (Json.str "https://b.example/feed")) := by
  obtain ⟨response, results, hr, hb, hl, -, -, hstr, -⟩ :=
    batch_results_aligned isolationWorld
      (batchRequest (.ok (JsVal.obj [("urls", JsVal.arr isolationUrls)])))
      [("urls", JsVal.arr isolationUrls)] isolationUrls rfl rfl
  exact ⟨rfl, rfl, response, results, hr, hb, hl, hstr 1 "https://b.example/feed" rfl⟩

theorem fetchOne_congr (world world2 : World) (request : Request) (index : Nat) (url : JsVal)
    (e : world2.fetch index (batchCall request url) = world.fetch index (batchCall request url)) :
    fetchOne world2 request index url = fetchOne world request index url := by
  unfold fetchOne
  rw [e]

theorem fetchOne_populated (world : World) (request : Request) (index : Nat) (url : JsVal) :
    ((fetchOne world request index url).ok = true →
      (fetchOne world request index url).content.isSome = true ∧
      (fetchOne world request index url).headers.isSome = true ∧
      (fetchOne world request index url).error = none) ∧
    ((fetchOne world request index url).ok = false →
      (fetchOne world request index url).content = none ∧
      (fetchOne world request index url).headers = none ∧
      (fetchOne world request index url).error.isSome = true) := by
  unfold fetchOne
  split
  · simp
  · split
    · simp
    · split <;> simp

/-- C7: in a batch over an array `urls`, `results[i]` is the outcome of the
fetch of `urls[i]` alone: a network that answers that one call the same way
gives the same `results[i]`, whatever it answers to the other calls.  A thrown
fault gives `ok:false`, status 500 and the fault message; a status outside
200-299 gives `ok:false`, the upstream status and status text; a 2xx response
whose body is read gives `ok:true`, the upstream status, content and headers.
Content and headers are present exactly when `ok` is true, `error` exactly
when it is false, in the result and in the JSON object written for it. -/
theorem batch_result_per_url (world : World) (request : Request)
    (fields : List (String × JsVal)) (items : List JsVal) (i : Nat) (url : JsVal)
    (h : request.json = .ok (JsVal.obj fields))
    (hu : fields.lookup "urls" = some (JsVal.arr items))
    (hi : items[i]? = some url) :
    ∃ response results result, (handleBatch world request).response = .ok response ∧
      response.body = Body.json (batchDocument results) ∧ results[i]? = some result ∧
      (∀ world2 : World,
        world2.fetch i (batchCall request url) = world.fetch i (batchCall request url) →
        ∃ response2 results2, (handleBatch world2 request).response = .ok response2 ∧
          response2.body = Body.json (batchDocument results2) ∧
          results2[i]? = some result) ∧
      (∀ message, world.fetch i (batchCall request url) = .fault message →
        result = { url := url, ok := false, status := 500, error := some message,
                   content := none, headers := none }) ∧
      (∀ res, world.fetch i (batchCall request url) = .response res → res.ok = false →
        result = { url := url, ok := false, status := res.status,
                   error := some res.statusText, content := none, headers := none }) ∧
      (∀ res content, world.fetch i (batchCall request url) = .response res →
        res.ok = true → res.text = .ok content →
        result = { url := url, ok := true, status := res.status, error := none,
                   content := some content,
                   headers := some (objectFromEntries res.headers.entries) }) ∧
      (∀ res message, world.fetch i (batchCall request url) = .response res →
        res.ok = true → res.text = .error message →
        result = { url := url, ok := false, status := 500, error := some message,
                   content := none, headers := none }) ∧
      (result.ok = true →
        result.content.isSome = true ∧ result.headers.isSome = true ∧ result.error = none) ∧
      (result.ok = false →
        result.content = none ∧ result.headers = none ∧ result.error.isSome = true) ∧
      (resultJson result).member "error" = result.error.map Json.str ∧
      (resultJson result).member "content" = result.content.map Json.str ∧
      ((resultJson result).member "headers").isSome = result.headers.isSome := by
  obtain ⟨response, hr, -, hb, -⟩ := handleBatch_results world request fields items h hu
  have hres : ∀ w : World, (items.mapIdx (fetchOne w request))[i]?
      = some (fetchOne w request i url) := by
    intro w
    rw [List.getElem?_mapIdx, hi]
    rfl
  refine ⟨response, items.mapIdx (fetchOne world request), fetchOne world request i url, hr, hb,
    hres world, ?_, ?_, ?_, ?_, ?_, (fetchOne_populated world request i url).1,
    (fetchOne_populated world request i url).2, resultJson_error _, resultJson_content _,
    resultJson_headers _⟩
  · intro world2 e
    obtain ⟨response2, hr2, -, hb2, -⟩ := handleBatch_results world2 request fields items h hu
    refine ⟨response2, items.mapIdx (fetchOne world2 request), hr2, hb2, ?_⟩
    rw [hres world2, fetchOne_congr world world2 request i url e]
  · intro message e
    simp [fetchOne, e]
  · intro res e hok
    simp [fetchOne, e, hok]
  · intro res content e hok ht
    simp [fetchOne, e, hok, ht]
  · intro res message e hok ht
    simp [fetchOne, e, hok, ht]

/-- C7 at a concrete input: the isolation scenario `[A (200), B (connection
refused), C (404)]`, read at index 1, and the `ok` and `status` of all three. -/
theorem batch_result_per_url_witness :
    (isolationUrls[1]? = some (JsVal.str "https://b.example/feed")) ∧
    (∃ response results result,
      (handleBatch isolationWorld
        (batchRequest (.ok (JsVal.obj [("urls", JsVal.arr isolationUrls)])))).response
          = .ok response ∧
      response.body = Body.json (batchDocument results) ∧ results[1]? = some result ∧
      result = { url := JsVal.str "https://b.example/feed", ok := false, status := 500,
                 error := some "connection refused", content := none, headers := none }) ∧
    (isolationUrls.mapIdx
        (fetchOne isolationWorld
          (batchRequest (.ok (JsVal.obj [("urls", JsVal.arr isolationUrls)]))))).map
      (fun r => (r.ok, r.status)) = [(true, 200), (false, 500), (false, 404)] := by
  refine ⟨rfl, ?_, by decide⟩
  obtain ⟨response, results, result, hr, hb, hi, -, hfault, -⟩ :=
    batch_result_per_url isolationWorld
      (batchRequest (.ok (JsVal.obj [("urls", JsVal.arr isolationUrls)])))
      [("urls", JsVal.arr isolationUrls)] isolationUrls 1
      (JsVal.str "https://b.example/feed") rfl rfl rfl
  exact ⟨response, results, result, hr, hb, hi, hfault "connection refused" rfl⟩

/-- C8 as stated is false: a `POST /batch` whose body is not JSON makes
`request.json()` throw; the outer catch answers 500 `Batch Error: ...`, not
400. -/
theorem batch_malformed_counterexample :
    (handleBatch refusingWorld (batchRequest (.error "Unexpected end of JSON input"))).calls
        = [] ∧
    ∃ response,
      (handleBatch refusingWorld
        (batchRequest (.error "Unexpected end of JSON input"))).response = .ok response ∧
      response.status = 500 ∧ response.status ≠ 400 ∧
      response.body = Body.text "Batch Error: Unexpected end of JSON input" := by
  obtain ⟨response, hr, hs, -, hb, -, hc⟩ :=
    get_response_headers
      (handleBatch_json_error refusingWorld
        (batchRequest (.error "Unexpected end of JSON input")) "Unexpected end of JSON input" rfl)
  refine ⟨hc, response, hr, hs, ?_, ?_⟩
  · rw [hs]
    decide
  · rw [hb]
    rfl

/-- C8 (amended): a `POST /batch` whose body parses as JSON to a value other
than `null` that is not an object with an array `urls` (a boolean, a number, a
string, an array, an object without `urls` or with a non-array `urls`, such as
`{}`) gets status 400 with the body `Invalid Request: "urls" must be an array`
and the CORS headers; a body for which `request.json()` throws gets status 500
with the body `Batch Error: <message>`; neither issues an outbound fetch. -/
theorem batch_invalid_body (world : World) (request : Request) :
    (∀ body, request.json = .ok body → body ≠ JsVal.null → body ≠ JsVal.undefined →
      (¬ ∃ fields items, body = JsVal.obj fields ∧
          fields.lookup "urls" = some (JsVal.arr items)) →
      (handleBatch world request).calls = [] ∧
      ∃ response, (handleBatch world request).response = .ok response ∧
        response.status = 400 ∧
        response.body = Body.text "Invalid Request: \"urls\" must be an array" ∧
        HasCors response.headers) ∧
    (request.json = .ok (JsVal.obj []) →
      (handleBatch world request).calls = [] ∧
      ∃ response, (handleBatch world request).response = .ok response ∧
        response.status = 400 ∧
        response.body = Body.text "Invalid Request: \"urls\" must be an array") ∧
    (∀ message, request.json = .error message →
      (handleBatch world request).calls = [] ∧
      ∃ response, (handleBatch world request).response = .ok response ∧
        response.status = 500 ∧ response.body = Body.text ("Batch Error: " ++ message) ∧
        HasCors response.headers) := by
  have hinv : ∀ body urls, request.json = .ok body → body.destructureUrls = .ok urls →
      urls.isArray = false →
      (handleBatch world request).calls = [] ∧
      ∃ response, (handleBatch world request).response = .ok response ∧
        response.status = 400 ∧
        response.body = Body.text "Invalid Request: \"urls\" must be an array" ∧
        HasCors response.headers := by
    intro body urls hj hd hu
    obtain ⟨response, hr, hs, -, hb, hh, hc⟩ :=
      get_response_headers (handleBatch_invalid world request body urls hj hd hu)
    refine ⟨hc, response, hr, hs, hb, ?_⟩
    rw [hh]
    exact hasCors_plainTextHeaders
  refine ⟨?_, ?_, ?_⟩
  · intro body hj hnull hundef hshape
    cases body with
    | undefined => exact absurd rfl hundef
    | null => exact absurd rfl hnull
    | bool b => exact hinv _ JsVal.undefined hj rfl rfl
    | num n => exact hinv _ JsVal.undefined hj rfl rfl
    | str v => exact hinv _ JsVal.undefined hj rfl rfl
    | arr xs => exact hinv _ JsVal.undefined hj rfl rfl
    | obj fields =>
      rcases isArray_cases ((fields.lookup "urls").getD JsVal.undefined) with hu | ⟨items, hitems⟩
      · exact hinv _ _ hj rfl hu
      · exfalso
        apply hshape
        refine ⟨fields, items, rfl, ?_⟩
        cases hl : fields.lookup "urls" with
        | none =>
          rw [hl] at hitems
          cases hitems
        | some v =>
          rw [hl] at hitems
          simpa using hitems
  · intro hj
    obtain ⟨hc, response, hr, hs, hb, -⟩ := hinv _ JsVal.undefined hj rfl rfl
    exact ⟨hc, response, hr, hs, hb⟩
  · intro message hj
    obtain ⟨response, hr, hs, -, hb, hh, hc⟩ :=
      get_response_headers (handleBatch_json_error world request message hj)
    refine ⟨hc, response, hr, hs, hb, ?_⟩
    rw [hh]
    exact hasCors_plainTextHeaders

end SiftProxy
